import Mathlib

/-!
Verification of the Quiz Conquest round-finalization and submission core.

The definitions below are a shallow embedding of the repository's SQL
functions (`submit_exam_attempt`, `handle_tab_switch`,
`calculate_round_scores`, `generate_rankings`, `perform_shortlisting`,
`finalize_round`, `submit_bulk_answers`) and of two HTTP route handlers
(the bulk-submission route with the 5-second grace window, and the
token-only `POST /submit` route).  Tables become lists of rows, row ids
and tokens become `Nat`, timestamps become `Int` (seconds for the SQL
functions, milliseconds for the JS route), and a PL/pgSQL exception that
aborts the transaction becomes `Except.error` (callers keep the original
state in that case).
-/

/-- ASCII uppercasing of one character, the effect of SQL `UPPER` and JS
`toUpperCase` on the option-letter repertoire this schema stores. -/
def upChar (c : Char) : Char :=
  if 'a' ≤ c ∧ c ≤ 'z' then Char.ofNat (c.toNat - 32) else c

/-- SQL `UPPER(x)` / JS `toUpperCase()`. -/
def sqlUpper (s : String) : String := ⟨s.data.map upChar⟩

/-- SQL `TRIM(x)` / JS `trim()`: strip spaces from both ends. -/
def sqlTrim (s : String) : String :=
  ⟨((s.data.dropWhile (· = ' ')).reverse.dropWhile (· = ' ')).reverse⟩

/-- `UPPER(TRIM(x))` as used by the SQL comparison and normalisation sites. -/
def upperTrim (s : String) : String := sqlUpper (sqlTrim s)

/-- The `CHECK (selected_option IN ('A','B','C','D'))` constraint on `responses`. -/
def validOption (s : String) : Bool :=
  s == "A" || s == "B" || s == "C" || s == "D"

/-- The `submission_type` CHECK list, mirrored by `v_valid_types` in
`submit_exam_attempt`. -/
def validTypes : List String := ["manual", "auto_timer", "auto_violation", "auto_round_end"]

/-- One element of the `p_answers` JSONB array.  Either field may be JSON null,
in which case the `WHERE ... IS NOT NULL` filter drops the element. -/
structure AnswerInput where
  question_id : Option Nat
  selected_option : Option String
deriving Repr, DecidableEq

/-- A row of the `questions` table (the canonical answer key). -/
structure Question where
  id : Nat
  round_number : Nat
  correct_option : String
deriving Repr, DecidableEq

/-- A row of the `responses` table.  `UNIQUE(participant_id, question_id)`. -/
structure ResponseRow where
  participant_id : Nat
  question_id : Nat
  round_number : Nat
  selected_option : String
  is_correct : Option Bool
  answered_at : Int
deriving Repr, DecidableEq

/-- A row of the `exam_sessions` table.  `UNIQUE(participant_id, round_number)`. -/
structure ExamSession where
  id : Nat
  participant_id : Nat
  round_number : Nat
  started_at : Int
  submitted_at : Option Int
  is_submitted : Bool
  submission_type : Option String
  tab_switch_count : Nat
  time_taken_seconds : Option Int
deriving Repr, DecidableEq

/-- A row of the `participants` table. -/
structure Participant where
  id : Nat
  is_active : Bool
  current_round : Nat
  is_qualified : Bool
  is_disqualified : Bool
  disqualification_reason : Option String
deriving Repr, DecidableEq

/-- A row of the `scores` table.  `UNIQUE(participant_id, round_number)`. -/
structure ScoreRow where
  participant_id : Nat
  round_number : Nat
  correct_answers : Nat
  total_questions : Nat
  time_taken_seconds : Option Int
  rank : Option Nat
  qualified_for_next : Bool
deriving Repr, DecidableEq

/-- A row of the `rounds` table. -/
structure RoundRow where
  round_number : Nat
  status : String
  top_qualify_count : Option Nat
  shortlisting_completed : Bool
  ended_at : Option Int
deriving Repr, DecidableEq

/-- The `event_state` singleton row (id = 1). -/
structure EventState where
  current_round : Nat
  round_status : String
  round_end_time : Option Int
deriving Repr, DecidableEq

/-- A stored answer pair inside a v4 `submissions` row. -/
structure AnsPair where
  question_id : Nat
  selected_option : String
deriving Repr, DecidableEq

/-- A row of the v4 `submissions` table.  `UNIQUE(attempt_token, round_number)`. -/
structure SubmissionRow where
  attempt_token : Nat
  round_number : Nat
  answers : List AnsPair
  time_taken_seconds : Int
deriving Repr, DecidableEq

/-- The database state touched by the submission/finalization core. -/
structure DB where
  event_state : EventState
  rounds : List RoundRow
  participants : List Participant
  questions : List Question
  responses : List ResponseRow
  exam_sessions : List ExamSession
  scores : List ScoreRow
  submissions : List SubmissionRow
deriving Repr, DecidableEq

/-- `INSERT ... ON CONFLICT (participant_id, question_id) DO UPDATE SET
selected_option = EXCLUDED.selected_option, answered_at = EXCLUDED.answered_at`
for a single source row whose stored option is already normalised. -/
def upsertResponse (l : List ResponseRow) (pid qid round : Nat) (sel : String)
    (now : Int) : List ResponseRow :=
  if l.any (fun r => r.participant_id == pid && r.question_id == qid) then
    l.map (fun r =>
      if r.participant_id == pid && r.question_id == qid then
        { r with selected_option := sel, answered_at := now }
      else r)
  else
    l ++ [{ participant_id := pid, question_id := qid, round_number := round,
            selected_option := sel, is_correct := none, answered_at := now }]

/-- The elements of `p_answers` that survive the
`WHERE (answer->>'question_id') IS NOT NULL AND (answer->>'selected_option') IS NOT NULL`
filter of the bulk insert. -/
def filterValid (answers : List AnswerInput) : List (Nat × String) :=
  answers.filterMap (fun a =>
    match a.question_id, a.selected_option with
    | some q, some s => some (q, s)
    | _, _ => none)

/-- The bulk `INSERT INTO responses ... SELECT ... ON CONFLICT DO UPDATE` of
`submit_exam_attempt` / `handle_tab_switch`.  A foreign-key violation
(`question_id` not in `questions`) or a CHECK violation (stored option not one
of A-D) raises; so does a second source row proposing the same
`(participant_id, question_id)` key within this one statement — PostgreSQL's
cardinality violation, `ON CONFLICT DO UPDATE command cannot affect row a
second time` — which the `seen` accumulator of already-affected question ids
tracks.  Any of these aborts the whole statement and, since neither calling
function has an exception handler, the whole transaction. -/
def insertResponses (questions : List Question) (pid round : Nat) (now : Int) :
    List (Nat × String) → List Nat → List ResponseRow →
    Except String (List ResponseRow)
  | [], _, l => .ok l
  | (qid, raw) :: rest, seen, l =>
    let sel := upperTrim raw
    if !(questions.any (fun q => q.id == qid)) then
      .error "foreign key violation: responses.question_id"
    else if !(validOption sel) then
      .error "check violation: responses.selected_option"
    else if seen.contains qid then
      .error "cardinality violation: ON CONFLICT DO UPDATE command cannot affect row a second time"
    else
      insertResponses questions pid round now rest (qid :: seen)
        (upsertResponse l pid qid round sel now)

/-- The JSONB object returned by `submit_exam_attempt`.  A key that a branch
does not emit is `none`/`false` (the JS caller reads a missing key as falsy). -/
structure SubmitResult where
  success : Bool
  already_submitted : Bool := false
  answers_recorded : Option Nat := none
  time_taken_seconds : Option Int := none
  submission_type : Option String := none
  message : Option String := none
deriving Repr, DecidableEq

/-- Predicate matching the session row of `(p_participant_id, p_round_number)`. -/
def sessMatch (pid round : Nat) (es : ExamSession) : Bool :=
  es.participant_id == pid && es.round_number == round

/-- `submit_exam_attempt(p_participant_id, p_round_number, p_answers,
p_submission_type)` from the v3.1 hardening migration: validate the submission
type, look up the session, return early when missing or already submitted,
otherwise bulk-upsert the answers and mark the session submitted, all in one
transaction. -/
def submit_exam_attempt (st : DB) (pid round : Nat) (answers : List AnswerInput)
    (ptype : String) (now : Int) : Except String (DB × SubmitResult) :=
  let ftype := if validTypes.contains ptype then ptype else "manual"
  match st.exam_sessions.find? (sessMatch pid round) with
  | none => .ok (st, { success := false, message := some "No exam session found" })
  | some es =>
    if es.is_submitted then
      .ok (st, { success := true, already_submitted := true,
                 message := some "Exam already submitted" })
    else
      let t : Int := now - es.started_at
      let entries := filterValid answers
      match insertResponses st.questions pid round now entries [] st.responses with
      | .error e => .error e
      | .ok resp =>
        let sessions := st.exam_sessions.map (fun s =>
          if s.id == es.id && !s.is_submitted then
            { s with is_submitted := true, submitted_at := some now,
                     submission_type := some ftype, time_taken_seconds := some t }
          else s)
        .ok ({ st with responses := resp, exam_sessions := sessions },
             { success := true, answers_recorded := some entries.length,
               time_taken_seconds := some t, submission_type := some ftype })

/-- The JSONB object returned by `handle_tab_switch`. -/
structure TabResult where
  success : Bool
  warning : Bool
  auto_submitted : Bool
  disqualified : Bool := false
  tab_switch_count : Nat
  message : Option String := none
deriving Repr, DecidableEq

/-- `handle_tab_switch(p_participant_id, p_round_number, p_answers)` from the
v3.1 hardening migration: a missing or already-submitted session is a pure
read; otherwise the counter is incremented; the first switch returns a warning
only; the second (or later) switch saves the supplied answers, marks the
session submitted with type `auto_violation` and elapsed `now - started_at`,
and disqualifies the participant, all in one transaction. -/
def handle_tab_switch (st : DB) (pid round : Nat) (answers : List AnswerInput)
    (now : Int) : Except String (DB × TabResult) :=
  match st.exam_sessions.find? (sessMatch pid round) with
  | none => .ok (st, { success := true, warning := false, auto_submitted := false,
                       tab_switch_count := 0 })
  | some es =>
    if es.is_submitted then
      .ok (st, { success := true, warning := false, auto_submitted := false,
                 tab_switch_count := es.tab_switch_count })
    else
      let cnt := es.tab_switch_count + 1
      let st1 := { st with exam_sessions := st.exam_sessions.map (fun s =>
        if s.id == es.id then { s with tab_switch_count := cnt } else s) }
      if cnt = 1 then
        .ok (st1, { success := true, warning := true, auto_submitted := false,
                    disqualified := false, tab_switch_count := cnt,
                    message := some "First warning: switching tabs again will result in disqualification" })
      else
        let t : Int := now - es.started_at
        match insertResponses st1.questions pid round now (filterValid answers) []
            st1.responses with
        | .error e => .error e
        | .ok resp =>
          let sessions := st1.exam_sessions.map (fun s =>
            if s.id == es.id then
              { s with is_submitted := true, submitted_at := some now,
                       submission_type := some "auto_violation",
                       time_taken_seconds := some t }
            else s)
          let parts := st1.participants.map (fun p =>
            if p.id == pid then
              { p with is_disqualified := true,
                       disqualification_reason :=
                         some ("Auto-disqualified: " ++ toString cnt ++ " tab switches (limit = 2)") }
            else p)
          .ok ({ st1 with responses := resp, exam_sessions := sessions,
                          participants := parts },
               { success := true, warning := false, auto_submitted := true,
                 disqualified := true, tab_switch_count := cnt,
                 message := some "Disqualified due to tab switch violations" })

/-- The `LEFT JOIN questions q ON q.id = r.question_id` with the scoring
comparison `UPPER(TRIM(r.selected_option)) = UPPER(TRIM(q.correct_option))`.
A response whose question is missing joins to NULL and never counts. -/
def matchesKey (questions : List Question) (r : ResponseRow) : Bool :=
  match questions.find? (fun q => q.id == r.question_id) with
  | some q => upperTrim r.selected_option == upperTrim q.correct_option
  | none => false

/-- The per-participant aggregate of `calculate_round_scores`: the number of
this participant's responses in this round whose selected option matches the
canonical answer key.  `responses.is_correct` is never consulted. -/
def scoreOf (st : DB) (round pid : Nat) : Nat :=
  st.responses.countP (fun r =>
    r.participant_id == pid && r.round_number == round && matchesKey st.questions r)

/-- `INSERT INTO scores ... ON CONFLICT (participant_id, round_number) DO
UPDATE SET correct_answers, time_taken_seconds` for one aggregated row:
`rank` and `qualified_for_next` are left alone on update and take their table
defaults (NULL / FALSE) on insert. -/
def upsertScore (l : List ScoreRow) (pid round correct : Nat)
    (time : Option Int) : List ScoreRow :=
  if l.any (fun s => s.participant_id == pid && s.round_number == round) then
    l.map (fun s =>
      if s.participant_id == pid && s.round_number == round then
        { s with correct_answers := correct, time_taken_seconds := time }
      else s)
  else
    l ++ [{ participant_id := pid, round_number := round, correct_answers := correct,
            total_questions := 15, time_taken_seconds := time, rank := none,
            qualified_for_next := false }]

/-- `calculate_round_scores(p_round_number)`: for every submitted session of
the round, upsert a score row whose `correct_answers` is recomputed from the
answer key. -/
def calculate_round_scores (st : DB) (round : Nat) : DB :=
  let rows := (st.exam_sessions.filter
      (fun es => es.round_number == round && es.is_submitted)).map
    (fun es => (es.participant_id, scoreOf st round es.participant_id,
                es.time_taken_seconds))
  let upserted := rows.foldl (fun l row => upsertScore l row.1 round row.2.1 row.2.2)
    st.scores
  { st with scores := upserted }

/-- The number of rows the scoring upsert of `calculate_round_scores`
processes, reported by `GET DIAGNOSTICS ... ROW_COUNT`. -/
def scoredCount (st : DB) (round : Nat) : Nat :=
  (st.exam_sessions.filter (fun es => es.round_number == round && es.is_submitted)).length

/-- The sort key of `ROW_NUMBER() OVER (ORDER BY s.correct_answers DESC,
s.time_taken_seconds ASC NULLS LAST, s.participant_id ASC)`.  Since
`scores` has `UNIQUE(participant_id, round_number)`, the participant id
identifies the row within a round. -/
structure RankKey where
  correct : Nat
  time : Option Int
  pid : Nat
deriving Repr, DecidableEq

/-- `time_taken_seconds ASC NULLS LAST` as a total comparison. -/
def timeLe (a b : Option Int) : Bool :=
  match a, b with
  | some x, some y => x ≤ y
  | some _, none => true
  | none, some _ => false
  | none, none => true

/-- The ranking order: `correct_answers DESC, time_taken_seconds ASC NULLS
LAST, participant_id ASC`. -/
def keyLe (a b : RankKey) : Bool :=
  if a.correct ≠ b.correct then b.correct < a.correct
  else if a.time ≠ b.time then timeLe a.time b.time
  else a.pid ≤ b.pid

/-- Projection of a score row onto its ranking sort key. -/
def scoreKey (s : ScoreRow) : RankKey :=
  { correct := s.correct_answers, time := s.time_taken_seconds, pid := s.participant_id }

/-- The `JOIN participants p ON p.id = s.participant_id ... AND
p.is_disqualified = FALSE` eligibility condition. -/
def isEligible (ps : List Participant) (pid : Nat) : Bool :=
  match ps.find? (fun p => p.id == pid) with
  | some p => !p.is_disqualified
  | none => false

/-- Zero-based position of the key with the given participant id. -/
def idxOfPid (pid : Nat) : List RankKey → Option Nat
  | [] => none
  | k :: ks => if k.pid == pid then some 0 else (idxOfPid pid ks).map (· + 1)

/-- The `ranked` CTE of `generate_rankings`: the eligible score rows of the
round in ranking order. -/
def rankedKeys (st : DB) (round : Nat) : List RankKey :=
  ((st.scores.filter (fun s =>
      s.round_number == round && isEligible st.participants s.participant_id)).map
    scoreKey).mergeSort keyLe

/-- The per-row effect of the two UPDATE statements of `generate_rankings`:
rows of the round belonging to a disqualified participant get
`rank = NULL, qualified_for_next = FALSE`; eligible rows get their
`ROW_NUMBER()` position; rows the `ranked` CTE does not cover stay as they
are. -/
def rankUpdate (parts : List Participant) (ranked : List RankKey) (round : Nat)
    (s : ScoreRow) : ScoreRow :=
  if s.round_number == round then
    match parts.find? (fun p => p.id == s.participant_id) with
    | some p =>
      if p.is_disqualified then { s with rank := none, qualified_for_next := false }
      else
        match idxOfPid s.participant_id ranked with
        | some i => { s with rank := some (i + 1) }
        | none => s
    | none => s
  else s

/-- `generate_rankings(p_round_number)`: assign `ROW_NUMBER()` ranks to the
eligible rows of the round, then set `rank = NULL, qualified_for_next = FALSE`
on the rows of disqualified participants. -/
def generate_rankings (st : DB) (round : Nat) : DB :=
  { st with scores := st.scores.map (rankUpdate st.participants (rankedKeys st round) round) }

/-- The `UPDATE scores SET qualified_for_next = FALSE WHERE round_number = p`
reset at the start of `perform_shortlisting`. -/
def resetQualified (round : Nat) (s : ScoreRow) : ScoreRow :=
  if s.round_number == round then { s with qualified_for_next := false } else s

/-- The `UPDATE scores SET qualified_for_next = TRUE WHERE round_number = p
AND rank IS NOT NULL AND rank <= p_top_count` marking step. -/
def markTopN (round top : Nat) (s : ScoreRow) : ScoreRow :=
  if s.round_number == round && s.rank.isSome && s.rank.getD 0 ≤ top then
    { s with qualified_for_next := true }
  else s

/-- `perform_shortlisting(p_round_number, p_top_count)`: reset all qualified
flags for the round, mark rank ≤ topN as qualified, push the outcome onto the
participants rows, flag the round as shortlisted, and return
`(qualified_count, total_participants)`. -/
def perform_shortlisting (st : DB) (round top : Nat) : DB × Nat × Nat :=
  let s1 := st.scores.map (resetQualified round)
  let total := s1.countP (fun s =>
    s.round_number == round && s.rank.isSome && isEligible st.participants s.participant_id)
  let s2 := s1.map (markTopN round top)
  let qcount := s2.countP (fun s => s.round_number == round && s.qualified_for_next)
  let ps1 := st.participants.map (fun p =>
    if (s2.any (fun s => s.round_number == round && s.participant_id == p.id &&
          !s.qualified_for_next)) && !p.is_disqualified then
      { p with is_qualified := false, current_round := round }
    else p)
  let ps2 := ps1.map (fun p =>
    if s2.any (fun s => s.round_number == round && s.participant_id == p.id &&
        s.qualified_for_next) then
      { p with current_round := round + 1, is_qualified := true }
    else p)
  let rounds := st.rounds.map (fun r =>
    if r.round_number == round then { r with shortlisting_completed := true } else r)
  ({ st with scores := s2, participants := ps2, rounds := rounds }, qcount, total)

/-- The JSONB object returned by `finalize_round`.  The winning branch emits no
`already_completed` key, which the JS caller reads as falsy. -/
structure FinalizeResult where
  success : Bool
  already_completed : Bool := false
  round_number : Option Nat := none
  auto_submitted : Option Nat := none
  total_scored : Option Nat := none
  qualified_count : Option Nat := none
  total_eligible : Option Nat := none
  top_count : Option Nat := none
  message : Option String := none
deriving Repr, DecidableEq

/-- `finalize_round(p_round_number)`: the single atomic entry point for ending
a round.  Step 1 is the idempotent guard `UPDATE rounds SET status =
'completed' WHERE round_number = p AND status != 'completed'`; zero rows
affected returns early with `already_completed`.  The winner updates
`event_state`, force-submits every pending session with type
`auto_round_end`, recomputes scores, rankings and the shortlist, and returns a
summary. -/
def finalize_round (st : DB) (round : Nat) (now : Int) : DB × FinalizeResult :=
  let affected := st.rounds.countP (fun r =>
    r.round_number == round && r.status != "completed")
  if affected = 0 then
    (st, { success := false, already_completed := true,
           message := some "Round already finalized" })
  else
    let rounds1 := st.rounds.map (fun r =>
      if r.round_number == round && r.status != "completed" then
        { r with status := "completed", ended_at := some now }
      else r)
    let ev := { st.event_state with round_status := "completed" }
    let autoCount := st.exam_sessions.countP (fun es =>
      es.round_number == round && !es.is_submitted)
    let sessions := st.exam_sessions.map (fun es =>
      if es.round_number == round && !es.is_submitted then
        { es with is_submitted := true, submitted_at := some now,
                  submission_type := some "auto_round_end",
                  time_taken_seconds := some (now - es.started_at) }
      else es)
    let st1 := { st with rounds := rounds1, event_state := ev,
                         exam_sessions := sessions }
    let scored := scoredCount st1 round
    let st2 := calculate_round_scores st1 round
    let st3 := generate_rankings st2 round
    let top := match st3.rounds.find? (fun r => r.round_number == round) with
      | some r => r.top_qualify_count.getD 25
      | none => 25
    let shortRes := perform_shortlisting st3 round top
    (shortRes.1, { success := true, round_number := some round,
                   auto_submitted := some autoCount, total_scored := some scored,
                   qualified_count := some shortRes.2.1,
                   total_eligible := some shortRes.2.2, top_count := some top })

/-- Repeated invocation of `finalize_round` on the same round (the
admin-versus-timer race, serialized by the atomic guard). -/
def iterFinalize (round : Nat) (now : Int) : Nat → DB → DB
  | 0, st => st
  | n + 1, st => iterFinalize round now n (finalize_round st round now).1

/-- Outcome of the earlier bulk-submission route: the idempotent short-circuit,
the post-grace-window rejection, or acceptance with the computed elapsed time. -/
inductive V2Outcome where
  | alreadySubmitted : V2Outcome
  | roundEnded : V2Outcome
  | accepted : Int → V2Outcome
deriving Repr, DecidableEq

/-- The deadline logic of the earlier `POST /submit-exam` route: an
already-submitted session short-circuits to success; then the submission is
rejected exactly when the round has a recorded end time, `now` is more than
5000 ms past it, and the submission type is not `auto_timer`; otherwise it is
accepted with elapsed time `(now - startedAt) / 1000` seconds.  All times are
in milliseconds. -/
def submitExamRouteV2 (isSubmitted : Bool) (startedAtMs : Int)
    (roundEndMs : Option Int) (nowMs : Int) (stype : String) : V2Outcome :=
  if isSubmitted then .alreadySubmitted
  else
    let rejected := match roundEndMs with
      | some e => nowMs > e + 5000 && stype != "auto_timer"
      | none => false
    if rejected then .roundEnded
    else .accepted ((nowMs - startedAtMs) / 1000)

/-- The JSONB object returned by `submit_bulk_answers`. -/
structure BulkResult where
  success : Bool
  already_submitted : Bool := false
  message : Option String := none
deriving Repr, DecidableEq

/-- `submit_bulk_answers(p_attempt_token, p_round_number, p_answers,
p_time_taken_seconds)` from the v4 architecture: if a submission row for this
token and round exists, return success with `already_submitted`; otherwise
insert the row and return success.  (Its `EXCEPTION WHEN OTHERS` handler,
which converts storage failures into the same success payload, is outside
this failure-free model.) -/
def submit_bulk_answers (st : DB) (token round : Nat) (answers : List AnsPair)
    (time : Int) : DB × BulkResult :=
  if st.submissions.any (fun s =>
      s.attempt_token == token && s.round_number == round) then
    (st, { success := true, already_submitted := true,
           message := some "Submission already recorded" })
  else
    ({ st with submissions := st.submissions ++
        [{ attempt_token := token, round_number := round, answers := answers,
           time_taken_seconds := time }] },
     { success := true, already_submitted := false,
       message := some "Submission recorded successfully" })

/-- The answer normalisation of the token-only `POST /submit` route:
keep entries with both fields present and uppercase-then-trim the option. -/
def routeFilterAnswers (answers : List AnswerInput) : List AnsPair :=
  answers.filterMap (fun a =>
    match a.question_id, a.selected_option with
    | some q, some s => some { question_id := q, selected_option := sqlTrim (sqlUpper s) }
    | _, _ => none)

/-- The token-only `POST /submit` route: a request without an attempt token is
answered with plain success and nothing is stored; otherwise the filtered
answers are passed to `submit_bulk_answers`. -/
def postSubmit (st : DB) (token : Option Nat) (round : Nat)
    (answers : List AnswerInput) (time : Int) : DB × BulkResult :=
  match token with
  | none => (st, { success := true, message := some "Submission processed" })
  | some t => submit_bulk_answers st t round (routeFilterAnswers answers) time

/-! Concrete fixtures used by witnesses and counterexamples. -/

/-- A question of round 1 with answer key `A`. -/
def exQuestion : Question := { id := 1, round_number := 1, correct_option := "A" }

/-- An originally stored response of participant 1 (the first Answer Set). -/
def exResponse : ResponseRow :=
  { participant_id := 1, question_id := 1, round_number := 1,
    selected_option := "A", is_correct := none, answered_at := 10 }

/-- A session that has already been submitted with a stored elapsed time of 42
seconds. -/
def exSessionDone : ExamSession :=
  { id := 1, participant_id := 1, round_number := 1, started_at := 0,
    submitted_at := some 42, is_submitted := true,
    submission_type := some "manual", tab_switch_count := 0,
    time_taken_seconds := some 42 }

/-- A session of participant 1 still in progress. -/
def exSessionOpen : ExamSession :=
  { id := 1, participant_id := 1, round_number := 1, started_at := 0,
    submitted_at := none, is_submitted := false, submission_type := none,
    tab_switch_count := 0, time_taken_seconds := none }

/-- A participant that is neither qualified-out nor disqualified. -/
def exParticipant : Participant :=
  { id := 1, is_active := true, current_round := 1, is_qualified := true,
    is_disqualified := false, disqualification_reason := none }

/-- An active round-1 row. -/
def exRoundActive : RoundRow :=
  { round_number := 1, status := "active", top_qualify_count := some 25,
    shortlisting_completed := false, ended_at := none }

/-- A completed round-1 row. -/
def exRoundDone : RoundRow :=
  { round_number := 1, status := "completed", top_qualify_count := some 25,
    shortlisting_completed := false, ended_at := some 900 }

/-- Event state with round 1 running. -/
def exEvent : EventState :=
  { current_round := 1, round_status := "running", round_end_time := some 900000 }

/-- State in which participant 1 already submitted round 1 (stored elapsed 42 s). -/
def exDBSubmitted : DB :=
  { event_state := exEvent, rounds := [exRoundActive],
    participants := [exParticipant], questions := [exQuestion],
    responses := [exResponse], exam_sessions := [exSessionDone],
    scores := [], submissions := [] }

/-- State in which participant 1 has an open round-1 session. -/
def exDBOpen : DB :=
  { event_state := exEvent, rounds := [exRoundActive],
    participants := [exParticipant], questions := [exQuestion],
    responses := [], exam_sessions := [exSessionOpen],
    scores := [], submissions := [] }

/-- State whose round 1 is already completed. -/
def exDBCompleted : DB :=
  { event_state := exEvent, rounds := [exRoundDone],
    participants := [exParticipant], questions := [exQuestion],
    responses := [exResponse], exam_sessions := [exSessionDone],
    scores := [], submissions := [] }

/-- State with no stored submissions (v4 token-only path). -/
def exDBNoSubs : DB :=
  { event_state := exEvent, rounds := [exRoundActive],
    participants := [], questions := [exQuestion],
    responses := [], exam_sessions := [],
    scores := [], submissions := [] }

/-- Claim C1, counterexample: with a round-1 session of participant 1 already
submitted and a stored elapsed time of 42 seconds, a further `SubmitExam` call
returns success with `already_submitted` but its payload carries no
`time_taken_seconds` at all, so it does not return the originally computed
elapsed time. -/
theorem submit_dup_no_elapsed_cx :
    submit_exam_attempt exDBSubmitted 1 1
        [{ question_id := some 1, selected_option := some "B" }] "manual" 500 =
      Except.ok (exDBSubmitted,
        { success := true, already_submitted := true,
          message := some "Exam already submitted" })
    ∧ exSessionDone.time_taken_seconds = some 42
    ∧ ({ success := true, already_submitted := true,
         message := some "Exam already submitted" } : SubmitResult).time_taken_seconds
        ≠ exSessionDone.time_taken_seconds := by
  refine ⟨rfl, rfl, by decide⟩

/-- Claim C1 (amended): once a session is submitted, any further
`submit_exam_attempt` call, with any answer payload, returns success with the
`already_submitted` flag (but no elapsed time in the payload), never errors,
and leaves the whole state — in particular the stored Answer Set and the
session — unchanged, so exactly the first stored Answer Set survives. -/
theorem submit_dup_idempotent (st : DB) (pid round : Nat)
    (answers : List AnswerInput) (ptype : String) (now : Int) (es : ExamSession)
    (hfind : st.exam_sessions.find? (sessMatch pid round) = some es)
    (hsub : es.is_submitted = true) :
    submit_exam_attempt st pid round answers ptype now =
      Except.ok (st, { success := true, already_submitted := true,
                       message := some "Exam already submitted" }) := by
  unfold submit_exam_attempt
  rw [hfind]
  simp [hsub]

/-- Claim C1, witness: the amended theorem applied to a concrete
already-submitted state and a fresh payload. -/
theorem submit_dup_idempotent_wit :
    exDBSubmitted.exam_sessions.find? (sessMatch 1 1) = some exSessionDone
    ∧ exSessionDone.is_submitted = true
    ∧ submit_exam_attempt exDBSubmitted 1 1
        [{ question_id := some 1, selected_option := some "C" }] "auto_timer" 777 =
      Except.ok (exDBSubmitted,
        { success := true, already_submitted := true,
          message := some "Exam already submitted" }) :=
  ⟨rfl, rfl,
   submit_dup_idempotent exDBSubmitted 1 1
     [{ question_id := some 1, selected_option := some "C" }] "auto_timer" 777
     exSessionDone rfl rfl⟩

/-- Claim C7: for an unsubmitted session with a recorded round deadline, a
submission arriving at most 5 seconds (5000 ms) after the deadline is
accepted; one arriving later is rejected unless its type is the
timer-triggered `auto_timer`, which is always accepted. -/
theorem grace_window_boundary (startMs e nowMs : Int) (stype : String) :
    (nowMs ≤ e + 5000 →
       submitExamRouteV2 false startMs (some e) nowMs stype =
         V2Outcome.accepted ((nowMs - startMs) / 1000))
    ∧ (nowMs > e + 5000 → stype ≠ "auto_timer" →
       submitExamRouteV2 false startMs (some e) nowMs stype = V2Outcome.roundEnded)
    ∧ (stype = "auto_timer" →
       submitExamRouteV2 false startMs (some e) nowMs stype =
         V2Outcome.accepted ((nowMs - startMs) / 1000)) := by
  refine ⟨fun h => ?_, fun h hs => ?_, fun h => ?_⟩
  · simp only [submitExamRouteV2, Bool.false_eq_true, if_false]
    have : ¬ (nowMs > e + 5000) := by omega
    simp [this]
  · simp only [submitExamRouteV2, Bool.false_eq_true, if_false]
    simp [h, hs]
  · subst h
    simp [submitExamRouteV2]

/-- Claim C7, witness: a manual submission 3 seconds after the deadline is
accepted, a manual one 10 seconds after is rejected, and a timer-triggered one
10 seconds after is accepted (deadline at 900000 ms). -/
theorem grace_window_boundary_wit :
    ((903000 : Int) ≤ 900000 + 5000
      ∧ submitExamRouteV2 false 0 (some 900000) 903000 "manual" =
          V2Outcome.accepted ((903000 - 0) / 1000))
    ∧ ((910000 : Int) > 900000 + 5000
      ∧ submitExamRouteV2 false 0 (some 900000) 910000 "manual" = V2Outcome.roundEnded)
    ∧ submitExamRouteV2 false 0 (some 900000) 910000 "auto_timer" =
        V2Outcome.accepted ((910000 - 0) / 1000) :=
  ⟨⟨by decide, (grace_window_boundary 0 900000 903000 "manual").1 (by decide)⟩,
   ⟨by decide, (grace_window_boundary 0 900000 910000 "manual").2.1 (by decide) (by decide)⟩,
   (grace_window_boundary 0 900000 910000 "auto_timer").2.2 rfl⟩

/-- Claim C9, counterexample: the token-only submit route answers a request
without an attempt token with plain success (and no `already_submitted`
indication), yet stores nothing: the submissions table stays empty although
the request carried an answer payload. -/
theorem post_submit_drops_payload_cx :
    postSubmit exDBNoSubs none 1
        [{ question_id := some 1, selected_option := some "A" }] 10 =
      (exDBNoSubs, { success := true, message := some "Submission processed" })
    ∧ exDBNoSubs.submissions = []
    ∧ ({ success := true, message := some "Submission processed" } :
        BulkResult).already_submitted = false := by
  refine ⟨rfl, rfl, by decide⟩

/-- Claim C9 (amended): when the request does carry an attempt token and the
storage layer raises no error, a success response without the
`already_submitted` flag implies the filtered answer payload has been durably
inserted as a submission row for that token and round. -/
theorem post_submit_durable (st : DB) (t round : Nat)
    (answers : List AnswerInput) (time : Int)
    (h : (postSubmit st (some t) round answers time).2.already_submitted = false) :
    ∃ row ∈ (postSubmit st (some t) round answers time).1.submissions,
      row.attempt_token = t ∧ row.round_number = round ∧
      row.answers = routeFilterAnswers answers ∧
      row.time_taken_seconds = time := by
  by_cases hc : st.submissions.any (fun s =>
      s.attempt_token == t && s.round_number == round) = true
  · exfalso
    simp [postSubmit, submit_bulk_answers, hc] at h
  · refine ⟨⟨t, round, routeFilterAnswers answers, time⟩, ?_, rfl, rfl, rfl, rfl⟩
    simp [postSubmit, submit_bulk_answers, hc]

/-- Claim C9, witness: the amended theorem applied to a concrete tokened
request on an empty submissions table. -/
theorem post_submit_durable_wit :
    (postSubmit exDBNoSubs (some 7) 1
        [{ question_id := some 1, selected_option := some "a " }] 10).2.already_submitted = false
    ∧ ∃ row ∈ (postSubmit exDBNoSubs (some 7) 1
        [{ question_id := some 1, selected_option := some "a " }] 10).1.submissions,
      row.attempt_token = 7 ∧ row.round_number = 1 ∧
      row.answers = routeFilterAnswers
        [{ question_id := some 1, selected_option := some "a " }] ∧
      row.time_taken_seconds = 10 :=
  ⟨by decide,
   post_submit_durable exDBNoSubs 7 1
     [{ question_id := some 1, selected_option := some "a " }] 10 (by decide)⟩

/-- A round row surviving the completion update and then the shortlisting flag
update is never still pending. -/
lemma countP_pending_after_complete (l : List RoundRow) (round : Nat) (now : Int) :
    (((l.map (fun r =>
        if r.round_number == round && r.status != "completed" then
          { r with status := "completed", ended_at := some now }
        else r)).map (fun r =>
        if r.round_number == round then { r with shortlisting_completed := true }
        else r))).countP
      (fun r => r.round_number == round && r.status != "completed") = 0 := by
  rw [List.countP_eq_zero]
  intro a ha
  simp only [List.mem_map] at ha
  obtain ⟨b, ⟨c, _, rfl⟩, rfl⟩ := ha
  by_cases hr : (c.round_number == round) = true
  · by_cases hs : (c.status != "completed") = true
    · simp [hr, hs]
    · simp only [Bool.not_eq_true] at hs
      simp [hr, hs]
  · simp only [Bool.not_eq_true] at hr
    simp [hr]

/-- When every row of the target round is already completed, `finalize_round`
is a no-op returning the `already_completed` payload. -/
lemma finalize_round_of_completed (st : DB) (round : Nat) (now : Int)
    (h : st.rounds.countP
      (fun r => r.round_number == round && r.status != "completed") = 0) :
    finalize_round st round now =
      (st, { success := false, already_completed := true,
             message := some "Round already finalized" }) := by
  unfold finalize_round
  simp [h]

/-- After any `finalize_round` call, no row of the target round is pending. -/
lemma finalize_round_completes (st : DB) (round : Nat) (now : Int) :
    ((finalize_round st round now).1.rounds).countP
      (fun r => r.round_number == round && r.status != "completed") = 0 := by
  unfold finalize_round
  by_cases h : st.rounds.countP
      (fun r => r.round_number == round && r.status != "completed") = 0
  · simp [h]
  · simp only [h, if_false]
    simpa [perform_shortlisting, generate_rankings, calculate_round_scores]
      using countP_pending_after_complete st.rounds round now

/-- A second `finalize_round` call is a pure no-op observer. -/
lemma finalize_round_idem (st : DB) (round : Nat) (now : Int) :
    finalize_round (finalize_round st round now).1 round now =
      ((finalize_round st round now).1,
       { success := false, already_completed := true,
         message := some "Round already finalized" }) :=
  finalize_round_of_completed _ _ _ (finalize_round_completes st round now)

/-- Iterating from an already-finalized state stays put. -/
lemma iterFinalize_fixed (round : Nat) (now : Int) (N : Nat) (st : DB) :
    iterFinalize round now N (finalize_round st round now).1 =
      (finalize_round st round now).1 := by
  induction N generalizing st with
  | zero => rfl
  | succ n ih =>
    show iterFinalize round now n
        (finalize_round (finalize_round st round now).1 round now).1 = _
    rw [finalize_round_idem]
    exact ih st

/-- Claim C2 (amended): `finalize_round` is guarded by the atomic conditional
completion update; when that update affects zero rows the call performs no
force-submit, scoring or shortlisting and returns, without raising an error,
the `already_completed` payload (whose `success` field is `false`); and for
any number N of invocations on the same round the finalization pipeline runs
exactly once — the state after N+1 calls equals the state after one call, and
every call after the first reports `already_completed`. -/
theorem end_round_exactly_once (st : DB) (round : Nat) (now : Int) :
    (st.rounds.countP
        (fun r => r.round_number == round && r.status != "completed") = 0 →
      finalize_round st round now =
        (st, { success := false, already_completed := true,
               message := some "Round already finalized" }))
    ∧ (∀ N : Nat, iterFinalize round now (N + 1) st = iterFinalize round now 1 st)
    ∧ (∀ N : Nat,
        (finalize_round (iterFinalize round now (N + 1) st) round now).2.already_completed
          = true) := by
  refine ⟨fun h => finalize_round_of_completed st round now h, fun N => ?_, fun N => ?_⟩
  · show iterFinalize round now N (finalize_round st round now).1 = _
    rw [iterFinalize_fixed]
    rfl
  · show (finalize_round (iterFinalize round now N (finalize_round st round now).1)
        round now).2.already_completed = true
    rw [iterFinalize_fixed, finalize_round_idem]

/-- Claim C2, counterexample: on a round whose row is already completed,
`finalize_round` reports `already_completed` but its payload's `success`
field is `false`, not the plain success the claim states. -/
theorem end_round_already_success_false_cx :
    (finalize_round exDBCompleted 1 1000).2.already_completed = true
    ∧ (finalize_round exDBCompleted 1 1000).2.success = false :=
  ⟨rfl, rfl⟩

/-- Claim C2, witness: the amended theorem applied to a live round: three
invocations leave the same state as one, and the second reports
`already_completed`. -/
theorem end_round_exactly_once_wit :
    iterFinalize 1 1000 3 exDBOpen = iterFinalize 1 1000 1 exDBOpen
    ∧ (finalize_round (iterFinalize 1 1000 2 exDBOpen) 1 1000).2.already_completed
        = true :=
  ⟨(end_round_exactly_once exDBOpen 1 1000).2.1 2,
   (end_round_exactly_once exDBOpen 1 1000).2.2 1⟩

/-- The `(participant_id, question_id)` key column pair of the `responses`
table, whose uniqueness the `UNIQUE(participant_id, question_id)` constraint
enforces. -/
def respKeys (l : List ResponseRow) : List (Nat × Nat) :=
  l.map (fun r => (r.participant_id, r.question_id))

/-- An upsert either rewrites an existing row in place (keys unchanged) or
appends a row with a previously absent key. -/
lemma respKeys_upsert (l : List ResponseRow) (pid qid round : Nat) (sel : String)
    (now : Int) :
    respKeys (upsertResponse l pid qid round sel now) = respKeys l ∨
    (respKeys (upsertResponse l pid qid round sel now) = respKeys l ++ [(pid, qid)]
      ∧ (pid, qid) ∉ respKeys l) := by
  unfold upsertResponse
  by_cases h : l.any (fun r => r.participant_id == pid && r.question_id == qid) = true
  · left
    simp only [h, if_true, respKeys, List.map_map]
    refine List.map_congr_left fun r _ => ?_
    simp only [Function.comp_apply]
    split <;> rfl
  · right
    constructor
    · simp [h, respKeys]
    · simp only [List.any_eq_true, not_exists, not_and, Bool.not_eq_true] at h
      simp only [respKeys, List.mem_map, not_exists]
      intro r
      rintro ⟨hrl, hk⟩
      have hfalse := h r hrl
      have h1 : r.participant_id = pid := congrArg Prod.fst hk
      have h2 : r.question_id = qid := congrArg Prod.snd hk
      simp [h1, h2] at hfalse

/-- Upserts keep the response keys duplicate-free. -/
lemma respKeys_nodup_upsert (l : List ResponseRow) (pid qid round : Nat)
    (sel : String) (now : Int) (hnd : (respKeys l).Nodup) :
    (respKeys (upsertResponse l pid qid round sel now)).Nodup := by
  rcases respKeys_upsert l pid qid round sel now with h | ⟨h, hmem⟩
  · rw [h]; exact hnd
  · rw [h]
    simp [List.nodup_append, hnd, hmem]

/-- The upserted key is present afterwards, carrying the upserted option
(`ON CONFLICT ... DO UPDATE`: the last write for a key wins). -/
lemma upsert_stores_value (l : List ResponseRow) (pid qid round : Nat)
    (sel : String) (now : Int) :
    ∃ r ∈ upsertResponse l pid qid round sel now,
      r.participant_id = pid ∧ r.question_id = qid ∧ r.selected_option = sel := by
  unfold upsertResponse
  by_cases h : l.any (fun r => r.participant_id == pid && r.question_id == qid) = true
  · simp only [h, if_true]
    simp only [List.any_eq_true] at h
    obtain ⟨r0, hr0, hk⟩ := h
    refine ⟨{ r0 with selected_option := sel, answered_at := now }, ?_, ?_, ?_, rfl⟩
    · rw [List.mem_map]
      exact ⟨r0, hr0, by simp [hk]⟩
    · simp only [Bool.and_eq_true, beq_iff_eq] at hk
      exact hk.1
    · simp only [Bool.and_eq_true, beq_iff_eq] at hk
      exact hk.2
  · simp only [h, if_false]
    exact ⟨_, List.mem_append_right _ (List.mem_singleton_self _), rfl, rfl, rfl⟩

/-- Presence of a stored entry (key and option value) survives an upsert for
a different question. -/
lemma upsert_keeps_entry (l : List ResponseRow) (pid qid round : Nat)
    (sel : String) (now : Int) (p q : Nat) (v : String) (hq : q ≠ qid)
    (h : ∃ r ∈ l, r.participant_id = p ∧ r.question_id = q
        ∧ r.selected_option = v) :
    ∃ r ∈ upsertResponse l pid qid round sel now,
      r.participant_id = p ∧ r.question_id = q ∧ r.selected_option = v := by
  obtain ⟨r0, hr0, h1, h2, h3⟩ := h
  unfold upsertResponse
  by_cases hc : l.any (fun r => r.participant_id == pid && r.question_id == qid) = true
  · simp only [hc, if_true]
    refine ⟨r0, ?_, h1, h2, h3⟩
    rw [List.mem_map]
    refine ⟨r0, hr0, ?_⟩
    rw [if_neg]
    simp only [Bool.and_eq_true, beq_iff_eq, not_and]
    intro _ hqq
    exact hq (h2 ▸ hqq)
  · simp only [hc, if_false]
    exact ⟨r0, List.mem_append_left _ hr0, h1, h2, h3⟩

/-- A stored entry for a question absent from the remaining source rows
survives the rest of the bulk insert. -/
lemma insertResponses_keeps_entry (questions : List Question) (pid round : Nat)
    (now : Int) (entries : List (Nat × String)) (seen : List Nat)
    (l l' : List ResponseRow) (p q : Nat) (v : String)
    (hok : insertResponses questions pid round now entries seen l = .ok l')
    (hq : ∀ e ∈ entries, e.1 ≠ q)
    (h : ∃ r ∈ l, r.participant_id = p ∧ r.question_id = q
        ∧ r.selected_option = v) :
    ∃ r ∈ l', r.participant_id = p ∧ r.question_id = q
      ∧ r.selected_option = v := by
  induction entries generalizing seen l with
  | nil =>
    simp only [insertResponses] at hok
    cases hok
    exact h
  | cons e rest ih =>
    obtain ⟨qid, raw⟩ := e
    simp only [insertResponses] at hok
    by_cases h1 : (questions.any (fun qu => qu.id == qid)) = true
    · by_cases h2 : validOption (upperTrim raw) = true
      · by_cases h3 : seen.contains qid = true
        · have h3m : qid ∈ seen := by simpa [List.elem_iff] using h3
          simp [h1, h2, h3m] at hok
        · simp only [h1, h2, h3, Bool.not_true, Bool.false_eq_true, if_false] at hok
          refine ih _ _ hok (fun e he => hq e (List.mem_cons_of_mem _ he)) ?_
          exact upsert_keeps_entry l pid qid round (upperTrim raw) now p q v
            (fun he => hq (qid, raw) (List.mem_cons_self _ _) (he ▸ rfl)) h
      · simp [h1, h2] at hok
    · simp [h1] at hok

/-- When no question id repeats in the payload, every bulk-inserted entry is
present afterwards with its normalised option (last write wins applies only
across calls, never within one statement). -/
lemma insertResponses_mem (questions : List Question) (pid round : Nat)
    (now : Int) (entries : List (Nat × String)) (seen : List Nat)
    (l l' : List ResponseRow)
    (hok : insertResponses questions pid round now entries seen l = .ok l')
    (hnd : (entries.map (·.1)).Nodup) :
    ∀ e ∈ entries, ∃ r ∈ l', r.participant_id = pid ∧ r.question_id = e.1
      ∧ r.selected_option = upperTrim e.2 := by
  induction entries generalizing seen l with
  | nil => intro e he; cases he
  | cons e0 rest ih =>
    intro e he
    obtain ⟨qid, raw⟩ := e0
    simp only [List.map_cons, List.nodup_cons, List.mem_map] at hnd
    simp only [insertResponses] at hok
    by_cases h1 : (questions.any (fun qu => qu.id == qid)) = true
    · by_cases h2 : validOption (upperTrim raw) = true
      · by_cases h3 : seen.contains qid = true
        · have h3m : qid ∈ seen := by simpa [List.elem_iff] using h3
          simp [h1, h2, h3m] at hok
        · simp only [h1, h2, h3, Bool.not_true, Bool.false_eq_true, if_false] at hok
          rcases List.mem_cons.1 he with he0 | heR
          · subst he0
            refine insertResponses_keeps_entry questions pid round now rest _ _ l'
              pid qid (upperTrim raw) hok ?_ ?_
            · intro x hx hxq
              exact hnd.1 ⟨x, hx, hxq⟩
            · exact upsert_stores_value l pid qid round (upperTrim raw) now
          · exact ih _ _ hok hnd.2 e heR
      · simp [h1, h2] at hok
    · simp [h1] at hok

/-- The bulk insert keeps the response keys duplicate-free. -/
lemma insertResponses_nodup (questions : List Question) (pid round : Nat)
    (now : Int) (entries : List (Nat × String)) (seen : List Nat)
    (l l' : List ResponseRow)
    (hok : insertResponses questions pid round now entries seen l = .ok l')
    (hnd : (respKeys l).Nodup) : (respKeys l').Nodup := by
  induction entries generalizing seen l with
  | nil =>
    simp only [insertResponses] at hok
    cases hok
    exact hnd
  | cons e rest ih =>
    obtain ⟨qid, raw⟩ := e
    simp only [insertResponses] at hok
    by_cases h1 : (questions.any (fun qu => qu.id == qid)) = true
    · by_cases h2 : validOption (upperTrim raw) = true
      · by_cases h3 : seen.contains qid = true
        · have h3m : qid ∈ seen := by simpa [List.elem_iff] using h3
          simp [h1, h2, h3m] at hok
        · simp only [h1, h2, h3, Bool.not_true, Bool.false_eq_true, if_false] at hok
          exact ih _ _ hok (respKeys_nodup_upsert l pid qid round (upperTrim raw) now hnd)
      · simp [h1, h2] at hok
    · simp [h1] at hok

/-- A bulk insert succeeds exactly on well-formed payloads: every entry must
reference a known question with a well-formed option, and no question id may
repeat within the statement (or already count as affected). -/
lemma insertResponses_total (questions : List Question) (pid round : Nat)
    (now : Int) (entries : List (Nat × String)) (seen : List Nat)
    (l : List ResponseRow)
    (hv : ∀ e ∈ entries, (questions.any (fun qu => qu.id == e.1)) = true
          ∧ validOption (upperTrim e.2) = true)
    (hnd : (entries.map (·.1)).Nodup)
    (hseen : ∀ e ∈ entries, e.1 ∉ seen) :
    ∃ l', insertResponses questions pid round now entries seen l = .ok l' := by
  induction entries generalizing seen l with
  | nil => exact ⟨l, rfl⟩
  | cons e rest ih =>
    obtain ⟨qid, raw⟩ := e
    obtain ⟨h1, h2⟩ := hv (qid, raw) (List.mem_cons_self _ _)
    simp only [List.map_cons, List.nodup_cons, List.mem_map] at hnd
    have h3 : seen.contains qid = false := by
      have := hseen (qid, raw) (List.mem_cons_self _ _)
      rw [← Bool.not_eq_true]
      intro hc
      exact this (List.elem_iff.1 hc)
    have hv2 : ∀ e ∈ rest, (questions.any (fun qu => qu.id == e.1)) = true
        ∧ validOption (upperTrim e.2) = true :=
      fun e he => hv e (List.mem_cons_of_mem _ he)
    have hseen2 : ∀ e ∈ rest, e.1 ∉ qid :: seen := by
      intro e he hmem
      rcases List.mem_cons.1 hmem with h | h
      · exact hnd.1 ⟨e, he, h⟩
      · exact hseen e (List.mem_cons_of_mem _ he) h
    obtain ⟨l', hl'⟩ := ih (qid :: seen)
      (upsertResponse l pid qid round (upperTrim raw) now) hv2 hnd.2 hseen2
    refine ⟨l', ?_⟩
    simp only [insertResponses, h1, h2, h3, Bool.not_true, Bool.false_eq_true, if_false]
    exact hl'

/-- A payload of otherwise valid entries that repeats a question id makes the
single bulk INSERT raise the cardinality violation. -/
lemma insertResponses_dup_error (questions : List Question) (pid round : Nat)
    (now : Int) (entries : List (Nat × String)) (seen : List Nat)
    (l : List ResponseRow)
    (hv : ∀ e ∈ entries, (questions.any (fun qu => qu.id == e.1)) = true
          ∧ validOption (upperTrim e.2) = true)
    (hbad : ¬ (entries.map (·.1)).Nodup ∨ ∃ e ∈ entries, e.1 ∈ seen) :
    ∃ err, insertResponses questions pid round now entries seen l = .error err := by
  induction entries generalizing seen l with
  | nil =>
    exfalso
    rcases hbad with h | ⟨e, he, _⟩
    · exact h List.nodup_nil
    · cases he
  | cons e rest ih =>
    obtain ⟨qid, raw⟩ := e
    obtain ⟨h1, h2⟩ := hv (qid, raw) (List.mem_cons_self _ _)
    by_cases h3 : seen.contains qid = true
    · refine ⟨"cardinality violation: ON CONFLICT DO UPDATE command cannot affect row a second time", ?_⟩
      have h3m : qid ∈ seen := by simpa [List.elem_iff] using h3
      simp [insertResponses, h1, h2, h3m]
    · have hqs : qid ∉ seen := by
        intro hmem
        exact h3 (List.elem_iff.2 hmem)
      have hv2 : ∀ e ∈ rest, (questions.any (fun qu => qu.id == e.1)) = true
          ∧ validOption (upperTrim e.2) = true :=
        fun e he => hv e (List.mem_cons_of_mem _ he)
      have hbad2 : ¬ (rest.map (·.1)).Nodup ∨ ∃ e ∈ rest, e.1 ∈ qid :: seen := by
        rcases hbad with h | ⟨e, he, hes⟩
        · by_cases hr : (rest.map (·.1)).Nodup
          · simp only [List.map_cons, List.nodup_cons] at h
            have hqmem : qid ∈ rest.map (·.1) :=
              not_not.1 (fun hnin => h ⟨hnin, hr⟩)
            obtain ⟨x, hx, hxq⟩ := List.mem_map.1 hqmem
            exact Or.inr ⟨x, hx, by rw [hxq]; exact List.mem_cons_self _ _⟩
          · exact Or.inl hr
        · rcases List.mem_cons.1 he with he0 | heR
          · have he1 : e.1 = qid := by rw [he0]
            exact absurd (he1 ▸ hes) hqs
          · exact Or.inr ⟨e, heR, List.mem_cons_of_mem _ hes⟩
      obtain ⟨err, herr⟩ := ih (qid :: seen)
        (upsertResponse l pid qid round (upperTrim raw) now) hv2 hbad2
      refine ⟨err, ?_⟩
      simp only [insertResponses, h1, h2, h3, Bool.not_true, Bool.false_eq_true,
        if_false]
      exact herr

/-- The JSON-null filter commutes with the route-level pre-filter. -/
lemma filterValid_filter (answers : List AnswerInput) :
    filterValid (answers.filter
      (fun a => a.question_id.isSome && a.selected_option.isSome)) =
    filterValid answers := by
  induction answers with
  | nil => rfl
  | cons a rest ih =>
    cases hq : a.question_id with
    | none => simp [filterValid, List.filter_cons, hq] at ih ⊢; exact ih
    | some q =>
      cases hs : a.selected_option with
      | none => simp [filterValid, List.filter_cons, hq, hs] at ih ⊢; exact ih
      | some s => simp [filterValid, List.filter_cons, hq, hs] at ih ⊢; exact ih

/-- Claim C8 (amended): answer entries with a JSON-null question id or option
are silently dropped — the submission behaves exactly as if they were
pre-filtered away; a submission whose remaining entries reference known
questions with well-formed options and pairwise-distinct question ids
succeeds and records every entry with its normalised option; the stored
Answer Set keeps at most one selection per question id, and the upsert
overwrites a prior stored selection for the same key (last write wins across
calls); but an unknown question id, a malformed option letter (see the
counterexample), or a question id repeated within one payload aborts the
whole submission with an error instead of being dropped. -/
theorem submit_answers_filtered_unique :
    (∀ (st : DB) (pid round : Nat) (answers : List AnswerInput)
        (ptype : String) (now : Int),
      submit_exam_attempt st pid round answers ptype now =
        submit_exam_attempt st pid round
          (answers.filter (fun a => a.question_id.isSome && a.selected_option.isSome))
          ptype now)
    ∧ (∀ (st : DB) (pid round : Nat) (answers : List AnswerInput) (ptype : String)
        (now : Int) (st' : DB) (res : SubmitResult),
      submit_exam_attempt st pid round answers ptype now = .ok (st', res) →
      (respKeys st.responses).Nodup → (respKeys st'.responses).Nodup)
    ∧ (∀ (l : List ResponseRow) (pid qid round : Nat) (sel : String) (now : Int),
      ∃ r ∈ upsertResponse l pid qid round sel now,
        r.participant_id = pid ∧ r.question_id = qid ∧ r.selected_option = sel)
    ∧ (∀ (st : DB) (pid round : Nat) (answers : List AnswerInput) (ptype : String)
        (now : Int) (es : ExamSession),
      st.exam_sessions.find? (sessMatch pid round) = some es →
      es.is_submitted = false →
      (∀ e ∈ filterValid answers,
        (st.questions.any (fun q => q.id == e.1)) = true
        ∧ validOption (upperTrim e.2) = true) →
      ((filterValid answers).map (·.1)).Nodup →
      ∃ st' res, submit_exam_attempt st pid round answers ptype now = .ok (st', res)
        ∧ res.success = true
        ∧ ∀ e ∈ filterValid answers, ∃ r ∈ st'.responses,
            r.participant_id = pid ∧ r.question_id = e.1
            ∧ r.selected_option = upperTrim e.2)
    ∧ (∀ (st : DB) (pid round : Nat) (answers : List AnswerInput) (ptype : String)
        (now : Int) (es : ExamSession),
      st.exam_sessions.find? (sessMatch pid round) = some es →
      es.is_submitted = false →
      (∀ e ∈ filterValid answers,
        (st.questions.any (fun q => q.id == e.1)) = true
        ∧ validOption (upperTrim e.2) = true) →
      ¬ ((filterValid answers).map (·.1)).Nodup →
      ∃ err, submit_exam_attempt st pid round answers ptype now =
        Except.error err) := by
  refine ⟨fun st pid round answers ptype now => ?_,
          fun st pid round answers ptype now st' res hok hnd => ?_,
          fun l pid qid round sel now => upsert_stores_value l pid qid round sel now,
          fun st pid round answers ptype now es hfind hsub hvalid hnodup => ?_,
          fun st pid round answers ptype now es hfind hsub hvalid hdup => ?_⟩
  · unfold submit_exam_attempt
    rw [filterValid_filter]
  · unfold submit_exam_attempt at hok
    rcases hf : st.exam_sessions.find? (sessMatch pid round) with _ | es
    · rw [hf] at hok
      simp only [Except.ok.injEq] at hok
      cases hok
      simpa using hnd
    · rw [hf] at hok
      by_cases hs : es.is_submitted = true
      · simp only [hs, if_true, Except.ok.injEq] at hok
        cases hok
        simpa using hnd
      · simp only [Bool.not_eq_true] at hs
        simp only [hs, Bool.false_eq_true, if_false] at hok
        rcases hi : insertResponses st.questions pid round now (filterValid answers)
            [] st.responses with e | resp
        · rw [hi] at hok
          cases hok
        · rw [hi] at hok
          simp only [Except.ok.injEq] at hok
          have hst : st' = { st with
              responses := resp,
              exam_sessions := st.exam_sessions.map (fun s =>
                if s.id == es.id && !s.is_submitted then
                  { s with is_submitted := true, submitted_at := some now,
                           submission_type := some (if validTypes.contains ptype
                             then ptype else "manual"),
                           time_taken_seconds := some (now - es.started_at) }
                else s) } := (congrArg Prod.fst hok).symm
          rw [hst]
          exact insertResponses_nodup st.questions pid round now (filterValid answers)
            [] st.responses resp hi hnd
  · obtain ⟨resp, hresp⟩ := insertResponses_total st.questions pid round now
      (filterValid answers) [] st.responses hvalid hnodup
      (fun e _ he => List.not_mem_nil e.1 he)
    refine ⟨{ st with
        responses := resp,
        exam_sessions := st.exam_sessions.map (fun s =>
          if s.id == es.id && !s.is_submitted then
            { s with is_submitted := true, submitted_at := some now,
                     submission_type := some (if validTypes.contains ptype
                       then ptype else "manual"),
                     time_taken_seconds := some (now - es.started_at) }
          else s) },
      { success := true, answers_recorded := some (filterValid answers).length,
        time_taken_seconds := some (now - es.started_at),
        submission_type := some (if validTypes.contains ptype
          then ptype else "manual") }, ?_, rfl, ?_⟩
    · unfold submit_exam_attempt
      rw [hfind]
      simp only [hsub, Bool.false_eq_true, if_false]
      simp [hresp]
    · exact insertResponses_mem st.questions pid round now (filterValid answers)
        [] st.responses resp hresp hnodup
  · obtain ⟨err, herr⟩ := insertResponses_dup_error st.questions pid round now
      (filterValid answers) [] st.responses hvalid (Or.inl hdup)
    refine ⟨err, ?_⟩
    unfold submit_exam_attempt
    rw [hfind]
    simp only [hsub, Bool.false_eq_true, if_false]
    simp [herr]

/-- Claim C8, counterexample: an answer entry with an unknown question id
(here 99, while only question 1 exists) does not get silently dropped — it
makes the whole submission fail with a foreign-key error and nothing is
recorded. -/
theorem submit_unknown_question_errs_cx :
    submit_exam_attempt exDBOpen 1 1
        [{ question_id := some 99, selected_option := some "A" }] "manual" 60 =
      Except.error "foreign key violation: responses.question_id" := rfl

/-- The state after participant 1 successfully submits `b` for question 1 at
time 60 on `exDBOpen`. -/
def exDBOpenAfter : DB :=
  { exDBOpen with
    responses := [{ participant_id := 1, question_id := 1, round_number := 1,
                    selected_option := "B", is_correct := none, answered_at := 60 }],
    exam_sessions := [{ exSessionOpen with
      is_submitted := true, submitted_at := some 60,
      submission_type := some "manual", time_taken_seconds := some 60 }] }

/-- Claim C8, witness: for a concrete open session, a payload with a null
entry behaves as its filtered form; a concrete successful run keeps the
response keys duplicate-free; a concrete upsert overwrites in place; a
concrete valid duplicate-free payload is recorded in full; and a concrete
payload repeating question 1 errors. -/
theorem submit_answers_filtered_unique_wit :
    (submit_exam_attempt exDBOpen 1 1
        [{ question_id := some 1, selected_option := some "b" },
         { question_id := none, selected_option := some "A" }] "manual" 60 =
      submit_exam_attempt exDBOpen 1 1
        ([{ question_id := some 1, selected_option := some "b" },
          { question_id := none, selected_option := some "A" }].filter
          (fun a => a.question_id.isSome && a.selected_option.isSome)) "manual" 60)
    ∧ (submit_exam_attempt exDBOpen 1 1
        [{ question_id := some 1, selected_option := some "b" }] "manual" 60 =
      Except.ok (exDBOpenAfter,
        { success := true, answers_recorded := some 1,
          time_taken_seconds := some 60, submission_type := some "manual" }))
    ∧ (respKeys exDBOpen.responses).Nodup
    ∧ (respKeys exDBOpenAfter.responses).Nodup
    ∧ (∃ r ∈ upsertResponse [exResponse] 1 1 1 "B" 60,
        r.participant_id = 1 ∧ r.question_id = 1 ∧ r.selected_option = "B")
    ∧ (∃ st' res, submit_exam_attempt exDBOpen 1 1
        [{ question_id := some 1, selected_option := some "b" }] "manual" 60 =
          .ok (st', res)
        ∧ res.success = true
        ∧ ∀ e ∈ filterValid [{ question_id := some 1, selected_option := some "b" }],
            ∃ r ∈ st'.responses, r.participant_id = 1 ∧ r.question_id = e.1
              ∧ r.selected_option = upperTrim e.2)
    ∧ (∃ err, submit_exam_attempt exDBOpen 1 1
        [{ question_id := some 1, selected_option := some "A" },
         { question_id := some 1, selected_option := some "B" }] "manual" 60 =
          Except.error err) :=
  ⟨submit_answers_filtered_unique.1 exDBOpen 1 1
      [{ question_id := some 1, selected_option := some "b" },
       { question_id := none, selected_option := some "A" }] "manual" 60,
   by rfl, by decide,
   submit_answers_filtered_unique.2.1 exDBOpen 1 1
     [{ question_id := some 1, selected_option := some "b" }] "manual" 60
     exDBOpenAfter
     { success := true, answers_recorded := some 1,
       time_taken_seconds := some 60, submission_type := some "manual" }
     (by rfl) (by decide),
   submit_answers_filtered_unique.2.2.1 [exResponse] 1 1 1 "B" 60,
   submit_answers_filtered_unique.2.2.2.1 exDBOpen 1 1
     [{ question_id := some 1, selected_option := some "b" }] "manual" 60
     exSessionOpen rfl rfl (by decide) (by decide),
   submit_answers_filtered_unique.2.2.2.2 exDBOpen 1 1
     [{ question_id := some 1, selected_option := some "A" },
      { question_id := some 1, selected_option := some "B" }] "manual" 60
     exSessionOpen rfl rfl (by decide) (by decide)⟩

/-- `find?` commutes with a row update that cannot change which rows match. -/
lemma find?_map_of_pres {α : Type} (p : α → Bool) (f : α → α)
    (hp : ∀ a, p (f a) = p a) :
    ∀ (l : List α) (a : α), l.find? p = some a → (l.map f).find? p = some (f a) := by
  intro l
  induction l with
  | nil => intro a h; cases h
  | cons hd tl ih =>
    intro a h
    by_cases hph : p hd = true
    · rw [List.find?_cons_of_pos _ hph] at h
      cases h
      rw [List.map_cons, List.find?_cons_of_pos _ ((hp hd).trans hph)]
    · rw [List.find?_cons_of_neg _ hph] at h
      rw [List.map_cons, List.find?_cons_of_neg _ (by rw [hp hd]; exact hph)]
      exact ih a h

/-- The counter-bump update leaves the session lookup key untouched. -/
lemma sessMatch_bump (pid round sid cnt : Nat) :
    ∀ s : ExamSession,
      sessMatch pid round (if s.id == sid then { s with tab_switch_count := cnt } else s) =
        sessMatch pid round s := by
  intro s
  by_cases h : (s.id == sid) = true
  · simp [h, sessMatch]
  · simp [h]

/-- A first violation on an unsubmitted session only bumps the counter and
returns a warning. -/
lemma tab_switch_first (st : DB) (pid round : Nat) (ans : List AnswerInput)
    (now : Int) (es : ExamSession)
    (hfind : st.exam_sessions.find? (sessMatch pid round) = some es)
    (hsub : es.is_submitted = false)
    (hcnt : es.tab_switch_count = 0) :
    handle_tab_switch st pid round ans now = .ok
      ({ st with exam_sessions := st.exam_sessions.map (fun s =>
          if s.id == es.id then { s with tab_switch_count := 1 } else s) },
       { success := true, warning := true, auto_submitted := false,
         disqualified := false, tab_switch_count := 1,
         message := some "First warning: switching tabs again will result in disqualification" }) := by
  unfold handle_tab_switch
  rw [hfind]
  simp [hsub, hcnt]

/-- A second violation on an unsubmitted session atomically saves the
answers, terminalizes the session as `auto_violation` and disqualifies the
participant. -/
lemma tab_switch_second (st : DB) (pid round : Nat) (ans : List AnswerInput)
    (now : Int) (es : ExamSession)
    (hfind : st.exam_sessions.find? (sessMatch pid round) = some es)
    (hsub : es.is_submitted = false)
    (hcnt : es.tab_switch_count = 1)
    (hvalid : ∀ e ∈ filterValid ans,
        (st.questions.any (fun q => q.id == e.1)) = true
        ∧ validOption (upperTrim e.2) = true)
    (hnodup : ((filterValid ans).map (·.1)).Nodup) :
    ∃ st2 : DB,
      handle_tab_switch st pid round ans now = .ok (st2,
        { success := true, warning := false, auto_submitted := true,
          disqualified := true, tab_switch_count := 2,
          message := some "Disqualified due to tab switch violations" })
      ∧ (∀ q ∈ st2.participants, q.id = pid → q.is_disqualified = true)
      ∧ (∀ s ∈ st2.exam_sessions, s.id = es.id →
          s.is_submitted = true ∧ s.submission_type = some "auto_violation"
          ∧ s.time_taken_seconds = some (now - es.started_at)
          ∧ s.tab_switch_count = 2)
      ∧ (∀ e ∈ filterValid ans, ∃ r ∈ st2.responses,
          r.participant_id = pid ∧ r.question_id = e.1
          ∧ r.selected_option = upperTrim e.2) := by
  obtain ⟨resp, hresp⟩ := insertResponses_total st.questions pid round now
    (filterValid ans) [] st.responses hvalid hnodup
    (fun e _ he => List.not_mem_nil e.1 he)
  refine ⟨{ st with
      responses := resp,
      exam_sessions := (st.exam_sessions.map (fun s =>
        if s.id == es.id then { s with tab_switch_count := 2 } else s)).map (fun s =>
          if s.id == es.id then
            { s with is_submitted := true, submitted_at := some now,
                     submission_type := some "auto_violation",
                     time_taken_seconds := some (now - es.started_at) }
          else s),
      participants := st.participants.map (fun p =>
        if p.id == pid then
          { p with is_disqualified := true,
                   disqualification_reason :=
                     some ("Auto-disqualified: " ++ toString 2 ++ " tab switches (limit = 2)") }
        else p) }, ?_, ?_, ?_, ?_⟩
  · unfold handle_tab_switch
    rw [hfind]
    simp only [hsub, Bool.false_eq_true, if_false, hcnt]
    simp [hresp]
  · intro q hq hid
    simp only [List.mem_map] at hq
    obtain ⟨p0, hp0, rfl⟩ := hq
    by_cases hc : (p0.id == pid) = true
    · simp [hc]
    · rw [if_neg hc] at hid ⊢
      exact absurd (by simp [hid]) hc
  · intro s hs hid
    simp only [List.mem_map] at hs
    obtain ⟨s1, ⟨s0, hs0, rfl⟩, rfl⟩ := hs
    by_cases hc : (s0.id == es.id) = true
    · simp [hc]
    · rw [if_neg hc] at hid
      rw [if_neg (by simpa using hc)] at hid
      exact absurd (by simp [hid]) hc
  · exact insertResponses_mem st.questions pid round now (filterValid ans)
      [] st.responses resp hresp hnodup

/-- Claim C3 (amended): on a running, unsubmitted session with no prior
violation, the first `handle_tab_switch` call only increments the counter and
returns a warning — it never sets submitted or disqualified and leaves
answers, participants and scores untouched; the second call, when its
answers-so-far payload is well-formed (known questions, valid options, no
question id repeated), as one transaction persists the payload into the
Answer Set, marks the session submitted with type `auto_violation` (the
violation-triggered tag) and elapsed `now - started_at`, and sets the
participant's disqualified flag.  (A payload repeating a question id makes
the second call error and roll back instead — see the counterexample.) -/
theorem violation_two_strike
    (st : DB) (pid round : Nat) (ans1 ans2 : List AnswerInput) (now1 now2 : Int)
    (es : ExamSession)
    (hfind : st.exam_sessions.find? (sessMatch pid round) = some es)
    (hsub : es.is_submitted = false)
    (hcnt : es.tab_switch_count = 0)
    (hvalid : ∀ e ∈ filterValid ans2,
        (st.questions.any (fun q => q.id == e.1)) = true
        ∧ validOption (upperTrim e.2) = true)
    (hnodup : ((filterValid ans2).map (·.1)).Nodup) :
    ∃ st1 st2 : DB,
      handle_tab_switch st pid round ans1 now1 = .ok (st1,
        { success := true, warning := true, auto_submitted := false,
          disqualified := false, tab_switch_count := 1,
          message := some "First warning: switching tabs again will result in disqualification" })
      ∧ st1.responses = st.responses
      ∧ st1.participants = st.participants
      ∧ st1.scores = st.scores
      ∧ st1.exam_sessions = st.exam_sessions.map (fun s =>
          if s.id == es.id then { s with tab_switch_count := 1 } else s)
      ∧ handle_tab_switch st1 pid round ans2 now2 = .ok (st2,
          { success := true, warning := false, auto_submitted := true,
            disqualified := true, tab_switch_count := 2,
            message := some "Disqualified due to tab switch violations" })
      ∧ (∀ q ∈ st2.participants, q.id = pid → q.is_disqualified = true)
      ∧ (∀ s ∈ st2.exam_sessions, s.id = es.id →
          s.is_submitted = true ∧ s.submission_type = some "auto_violation"
          ∧ s.time_taken_seconds = some (now2 - es.started_at)
          ∧ s.tab_switch_count = 2)
      ∧ (∀ e ∈ filterValid ans2, ∃ r ∈ st2.responses,
          r.participant_id = pid ∧ r.question_id = e.1
          ∧ r.selected_option = upperTrim e.2) := by
  have hcall1 := tab_switch_first st pid round ans1 now1 es hfind hsub hcnt
  have hfind1 : ({ st with exam_sessions := st.exam_sessions.map (fun s =>
        if s.id == es.id then { s with tab_switch_count := 1 } else s) } :
        DB).exam_sessions.find? (sessMatch pid round) =
      some { es with tab_switch_count := 1 } := by
    have h := find?_map_of_pres (sessMatch pid round) _
      (sessMatch_bump pid round es.id 1) st.exam_sessions es hfind
    simpa using h
  obtain ⟨st2, hc2, hparts, hsess, hresp⟩ :=
    tab_switch_second _ pid round ans2 now2 { es with tab_switch_count := 1 }
      hfind1 hsub rfl hvalid hnodup
  exact ⟨_, st2, hcall1, rfl, rfl, rfl, rfl, hc2, hparts, hsess, hresp⟩

/-- Claim C3, witness: the two-strike theorem applied to a concrete open
session with a concrete answers-so-far payload. -/
theorem violation_two_strike_wit :
    exDBOpen.exam_sessions.find? (sessMatch 1 1) = some exSessionOpen
    ∧ exSessionOpen.is_submitted = false
    ∧ exSessionOpen.tab_switch_count = 0
    ∧ (∀ e ∈ filterValid [{ question_id := some 1, selected_option := some "a" }],
        (exDBOpen.questions.any (fun q => q.id == e.1)) = true
        ∧ validOption (upperTrim e.2) = true)
    ∧ ((filterValid [{ question_id := some 1, selected_option := some "a" }]).map
        (·.1)).Nodup
    ∧ ∃ st1 st2 : DB,
      handle_tab_switch exDBOpen 1 1 [] 30 = .ok (st1,
        { success := true, warning := true, auto_submitted := false,
          disqualified := false, tab_switch_count := 1,
          message := some "First warning: switching tabs again will result in disqualification" })
      ∧ st1.responses = exDBOpen.responses
      ∧ st1.participants = exDBOpen.participants
      ∧ st1.scores = exDBOpen.scores
      ∧ st1.exam_sessions = exDBOpen.exam_sessions.map (fun s =>
          if s.id == exSessionOpen.id then { s with tab_switch_count := 1 } else s)
      ∧ handle_tab_switch st1 1 1
          [{ question_id := some 1, selected_option := some "a" }] 45 = .ok (st2,
          { success := true, warning := false, auto_submitted := true,
            disqualified := true, tab_switch_count := 2,
            message := some "Disqualified due to tab switch violations" })
      ∧ (∀ q ∈ st2.participants, q.id = 1 → q.is_disqualified = true)
      ∧ (∀ s ∈ st2.exam_sessions, s.id = exSessionOpen.id →
          s.is_submitted = true ∧ s.submission_type = some "auto_violation"
          ∧ s.time_taken_seconds = some (45 - exSessionOpen.started_at)
          ∧ s.tab_switch_count = 2)
      ∧ (∀ e ∈ filterValid [{ question_id := some 1, selected_option := some "a" }],
          ∃ r ∈ st2.responses, r.participant_id = 1 ∧ r.question_id = e.1
          ∧ r.selected_option = upperTrim e.2) :=
  ⟨rfl, rfl, rfl, by decide, by decide,
   violation_two_strike exDBOpen 1 1 []
     [{ question_id := some 1, selected_option := some "a" }] 30 45 exSessionOpen
     rfl rfl rfl (by decide) (by decide)⟩

/-- The observable state transition of the tab-switch route: on a constraint
error the transaction rolls back and the state is unchanged. -/
def tabSwitchEffect (st : DB) (pid round : Nat) (ans : List AnswerInput)
    (now : Int) : DB :=
  match handle_tab_switch st pid round ans now with
  | .ok (st2, _) => st2
  | .error _ => st

/-- `exDBOpen` after a first recorded violation: the open session of
participant 1 carries a counter of 1, so the next violation report is the
second strike. -/
def exDBWarned : DB :=
  { exDBOpen with exam_sessions := [{ exSessionOpen with tab_switch_count := 1 }] }

/-- Claim C3, counterexample: the second violation report with an
answers-so-far payload that repeats question 1 (both entries valid on their
own) raises the cardinality violation of the single bulk INSERT: the
transaction rolls back, so the session is not submitted and the candidate is
NOT disqualified, refuting the claim that the second call always persists the
payload and sets the disqualified flag. -/
theorem violation_dup_answer_errs_cx :
    handle_tab_switch exDBWarned 1 1
        [{ question_id := some 1, selected_option := some "A" },
         { question_id := some 1, selected_option := some "B" }] 45 =
      Except.error "cardinality violation: ON CONFLICT DO UPDATE command cannot affect row a second time"
    ∧ tabSwitchEffect exDBWarned 1 1
        [{ question_id := some 1, selected_option := some "A" },
         { question_id := some 1, selected_option := some "B" }] 45 = exDBWarned
    ∧ (∀ q ∈ (tabSwitchEffect exDBWarned 1 1
        [{ question_id := some 1, selected_option := some "A" },
         { question_id := some 1, selected_option := some "B" }] 45).participants,
        q.is_disqualified = false) := by
  refine ⟨rfl, rfl, by decide⟩

/-- The reachable-session invariant: the stored counter never exceeds 2, and
an unsubmitted session has seen at most one violation. -/
def SessionInv (st : DB) : Prop :=
  ∀ es ∈ st.exam_sessions,
    es.tab_switch_count ≤ 2 ∧ (es.is_submitted = false → es.tab_switch_count ≤ 1)

instance (st : DB) : Decidable (SessionInv st) := by
  unfold SessionInv
  infer_instance

/-- Claim C10: `handle_tab_switch` preserves the invariant that no stored
`tab_switch_count` exceeds 2 (the call that raises the counter to 2 marks the
session submitted in the same transaction), and on an already-submitted
session it is a pure read returning the terminal state unchanged. -/
theorem tab_switch_count_bounded (st : DB) (pid round : Nat)
    (ans : List AnswerInput) (now : Int) (hinv : SessionInv st) :
    SessionInv (tabSwitchEffect st pid round ans now)
    ∧ (∀ es, st.exam_sessions.find? (sessMatch pid round) = some es →
        es.is_submitted = true →
        handle_tab_switch st pid round ans now = .ok (st,
          { success := true, warning := false, auto_submitted := false,
            tab_switch_count := es.tab_switch_count })) := by
  constructor
  · unfold tabSwitchEffect handle_tab_switch
    rcases hf : st.exam_sessions.find? (sessMatch pid round) with _ | es
    · exact hinv
    · by_cases hs : es.is_submitted = true
      · simp only [hs, if_true]
        exact hinv
      · simp only [Bool.not_eq_true] at hs
        simp only [hs, Bool.false_eq_true, if_false]
        have hb := hinv es (List.mem_of_find?_eq_some hf)
        have hle : es.tab_switch_count ≤ 1 := hb.2 hs
        by_cases hc : es.tab_switch_count + 1 = 1
        · simp only [hc, if_true]
          intro s hsm
          simp only [List.mem_map] at hsm
          obtain ⟨s0, hs0, rfl⟩ := hsm
          by_cases hid : (s0.id == es.id) = true
          · simp only [hid, if_true]
            exact ⟨by omega, fun _ => by omega⟩
          · simp only [hid, if_false]
            exact hinv s0 hs0
        · simp only [hc, if_false]
          rcases hi : insertResponses st.questions pid round now (filterValid ans)
              [] st.responses with e | resp
          · simp only [hi]
            exact hinv
          · simp only [hi]
            intro s hsm
            simp only [List.mem_map] at hsm
            obtain ⟨s1, ⟨s0, hs0, rfl⟩, rfl⟩ := hsm
            by_cases hid : (s0.id == es.id) = true
            · simp only [hid, if_true]
              refine ⟨by omega, fun h => ?_⟩
              simp at h
            · simp only [hid, Bool.false_eq_true, if_false]
              exact hinv s0 hs0
  · intro es hf hs
    unfold handle_tab_switch
    rw [hf]
    simp [hs]

/-- Claim C10, witness: the invariant theorem applied to the concrete state
whose open session has one recorded violation, and the pure-read conclusion
applied to the concrete already-submitted state. -/
theorem tab_switch_count_bounded_wit :
    SessionInv exDBSubmitted
    ∧ SessionInv (tabSwitchEffect exDBSubmitted 1 1 [] 50)
    ∧ (exDBSubmitted.exam_sessions.find? (sessMatch 1 1) = some exSessionDone
       ∧ exSessionDone.is_submitted = true
       ∧ handle_tab_switch exDBSubmitted 1 1 [] 50 = .ok (exDBSubmitted,
          { success := true, warning := false, auto_submitted := false,
            tab_switch_count := exSessionDone.tab_switch_count })) :=
  ⟨by decide,
   (tab_switch_count_bounded exDBSubmitted 1 1 [] 50 (by decide)).1,
   rfl, rfl,
   (tab_switch_count_bounded exDBSubmitted 1 1 [] 50 (by decide)).2
     exSessionDone rfl rfl⟩

/-- The score upsert lands its aggregated values. -/
lemma upsertScore_stores (l : List ScoreRow) (pid round c : Nat) (t : Option Int) :
    ∃ s ∈ upsertScore l pid round c t,
      s.participant_id = pid ∧ s.round_number = round
      ∧ s.correct_answers = c ∧ s.time_taken_seconds = t := by
  unfold upsertScore
  by_cases h : l.any (fun s => s.participant_id == pid && s.round_number == round) = true
  · simp only [h, if_true]
    simp only [List.any_eq_true] at h
    obtain ⟨s0, hs0, hk⟩ := h
    simp only [Bool.and_eq_true, beq_iff_eq] at hk
    refine ⟨{ s0 with correct_answers := c, time_taken_seconds := t }, ?_, hk.1, hk.2, rfl, rfl⟩
    rw [List.mem_map]
    exact ⟨s0, hs0, by simp [hk.1, hk.2]⟩
  · simp only [h, if_false]
    exact ⟨_, List.mem_append_right _ (List.mem_singleton_self _), rfl, rfl, rfl, rfl⟩

/-- A score row of a different participant survives an upsert unchanged. -/
lemma upsertScore_keeps (l : List ScoreRow) (pid round c : Nat) (t : Option Int)
    (p c0 : Nat) (t0 : Option Int) (hne : p ≠ pid)
    (h : ∃ s ∈ l, s.participant_id = p ∧ s.round_number = round
        ∧ s.correct_answers = c0 ∧ s.time_taken_seconds = t0) :
    ∃ s ∈ upsertScore l pid round c t,
      s.participant_id = p ∧ s.round_number = round
      ∧ s.correct_answers = c0 ∧ s.time_taken_seconds = t0 := by
  obtain ⟨s0, hs0, h1, h2, h3, h4⟩ := h
  unfold upsertScore
  by_cases hc : l.any (fun s => s.participant_id == pid && s.round_number == round) = true
  · simp only [hc, if_true]
    refine ⟨s0, ?_, h1, h2, h3, h4⟩
    rw [List.mem_map]
    refine ⟨s0, hs0, ?_⟩
    rw [if_neg]
    simp only [Bool.and_eq_true, beq_iff_eq, not_and]
    intro hp
    exact absurd (h1 ▸ hp) hne
  · simp only [hc, if_false]
    exact ⟨s0, List.mem_append_left _ hs0, h1, h2, h3, h4⟩

/-- A stored score row for a participant absent from the remaining upserts
survives the whole fold. -/
lemma foldl_upsertScore_keeps (rows : List (Nat × Nat × Option Int))
    (init : List ScoreRow) (round : Nat) (p c0 : Nat) (t0 : Option Int)
    (hp : ∀ r ∈ rows, r.1 ≠ p)
    (h : ∃ s ∈ init, s.participant_id = p ∧ s.round_number = round
        ∧ s.correct_answers = c0 ∧ s.time_taken_seconds = t0) :
    ∃ s ∈ rows.foldl (fun l row => upsertScore l row.1 round row.2.1 row.2.2) init,
      s.participant_id = p ∧ s.round_number = round
      ∧ s.correct_answers = c0 ∧ s.time_taken_seconds = t0 := by
  induction rows generalizing init with
  | nil => exact h
  | cons r rest ih =>
    refine ih _ (fun x hx => hp x (List.mem_cons_of_mem _ hx)) ?_
    exact upsertScore_keeps init r.1 round r.2.1 r.2.2 p c0 t0
      (fun he => hp r (List.mem_cons_self _ _) (he ▸ rfl)) h

/-- Every aggregated row of the scoring fold ends up stored with its values,
provided participants are not repeated (the sessions-table uniqueness). -/
lemma foldl_upsertScore_mem (rows : List (Nat × Nat × Option Int))
    (init : List ScoreRow) (round : Nat)
    (hnd : (rows.map (·.1)).Nodup) :
    ∀ r ∈ rows,
      ∃ s ∈ rows.foldl (fun l row => upsertScore l row.1 round row.2.1 row.2.2) init,
        s.participant_id = r.1 ∧ s.round_number = round
        ∧ s.correct_answers = r.2.1 ∧ s.time_taken_seconds = r.2.2 := by
  induction rows generalizing init with
  | nil => intro r hr; cases hr
  | cons r0 rest ih =>
    intro r hr
    simp only [List.map_cons, List.nodup_cons, List.mem_map] at hnd
    rcases List.mem_cons.1 hr with rfl | hrR
    · refine foldl_upsertScore_keeps rest _ round r.1 r.2.1 r.2.2 ?_ ?_
      · intro x hx he
        exact hnd.1 ⟨x, hx, he⟩
      · exact upsertScore_stores init r.1 round r.2.1 r.2.2
    · exact ih (upsertScore init r0.1 round r0.2.1 r0.2.2) hnd.2 r hrR

/-- Scoring depends only on the sessions, the stored selections and the
answer key. -/
lemma calculate_round_scores_congr (st1 st2 : DB) (round : Nat)
    (hsess : st1.exam_sessions = st2.exam_sessions)
    (hscores : st1.scores = st2.scores)
    (hval : ∀ pid, scoreOf st1 round pid = scoreOf st2 round pid) :
    (calculate_round_scores st1 round).scores =
      (calculate_round_scores st2 round).scores := by
  unfold calculate_round_scores
  simp only [hsess, hscores]
  congr 1
  apply List.map_congr_left
  intro es _
  rw [hval]

/-- Claim C4: for every submitted session of the round, the stored score
equals the count of that participant's responses whose selected option
matches the question's correct option under the case-insensitive trimmed
comparison; rewriting the client-asserted `is_correct` field arbitrarily
never changes the computed scores; and a participant with no stored
responses for the round scores zero. -/
theorem scoring_from_answer_key (st : DB) (round : Nat) (es : ExamSession)
    (hmem : es ∈ st.exam_sessions) (hr : es.round_number = round)
    (hsub : es.is_submitted = true)
    (hnd : ((st.exam_sessions.filter
        (fun e => e.round_number == round && e.is_submitted)).map
        (·.participant_id)).Nodup) :
    (∃ s ∈ (calculate_round_scores st round).scores,
      s.participant_id = es.participant_id ∧ s.round_number = round
      ∧ s.correct_answers = scoreOf st round es.participant_id
      ∧ s.time_taken_seconds = es.time_taken_seconds)
    ∧ (∀ g : ResponseRow → Option Bool,
      (calculate_round_scores
          { st with responses := st.responses.map (fun r => { r with is_correct := g r }) }
          round).scores = (calculate_round_scores st round).scores)
    ∧ (∀ pid, st.responses.filter
          (fun r => r.participant_id == pid && r.round_number == round) = [] →
        scoreOf st round pid = 0) := by
  refine ⟨?_, ?_, ?_⟩
  · have hfil : es ∈ st.exam_sessions.filter
        (fun e => e.round_number == round && e.is_submitted) :=
      List.mem_filter.2 ⟨hmem, by simp [hr, hsub]⟩
    have hrow : (es.participant_id, scoreOf st round es.participant_id,
        es.time_taken_seconds) ∈ (st.exam_sessions.filter
          (fun e => e.round_number == round && e.is_submitted)).map
        (fun e => (e.participant_id, scoreOf st round e.participant_id,
            e.time_taken_seconds)) :=
      List.mem_map_of_mem _ hfil
    have hnd2 : (((st.exam_sessions.filter
        (fun e => e.round_number == round && e.is_submitted)).map
        (fun e => (e.participant_id, scoreOf st round e.participant_id,
            e.time_taken_seconds))).map (·.1)).Nodup := by
      rw [List.map_map]
      exact hnd
    exact foldl_upsertScore_mem _ st.scores round hnd2 _ hrow
  · intro g
    refine calculate_round_scores_congr _ st round rfl rfl ?_
    intro pid
    unfold scoreOf
    show List.countP _ (st.responses.map (fun r => { r with is_correct := g r })) = _
    rw [List.countP_map]
    exact List.countP_congr (fun x _ => Iff.rfl)
  · intro pid hempty
    have h1 : st.responses.countP
        (fun r => r.participant_id == pid && r.round_number == round) = 0 := by
      rw [List.countP_eq_length_filter, hempty]
      rfl
    have h2 : scoreOf st round pid ≤ st.responses.countP
        (fun r => r.participant_id == pid && r.round_number == round) := by
      unfold scoreOf
      refine List.countP_mono_left ?_
      intro x _ hx
      simp only [Bool.and_eq_true] at hx
      simp [hx.1.1, hx.1.2]
    omega

/-- Claim C4, witness: the scoring theorem applied to the concrete submitted
session, whose single stored response matches the key. -/
theorem scoring_from_answer_key_wit :
    exSessionDone ∈ exDBSubmitted.exam_sessions
    ∧ exSessionDone.round_number = 1
    ∧ exSessionDone.is_submitted = true
    ∧ ((exDBSubmitted.exam_sessions.filter
        (fun e => e.round_number == 1 && e.is_submitted)).map
        (·.participant_id)).Nodup
    ∧ scoreOf exDBSubmitted 1 1 = 1
    ∧ (∃ s ∈ (calculate_round_scores exDBSubmitted 1).scores,
      s.participant_id = exSessionDone.participant_id ∧ s.round_number = 1
      ∧ s.correct_answers = scoreOf exDBSubmitted 1 exSessionDone.participant_id
      ∧ s.time_taken_seconds = exSessionDone.time_taken_seconds) :=
  ⟨by decide, rfl, rfl, by decide, by decide,
   (scoring_from_answer_key exDBSubmitted 1 exSessionDone
     (by decide) rfl rfl (by decide)).1⟩

/-- The rank-assignment update never touches identity, score or elapsed
time. -/
lemma rankUpdate_fields (parts : List Participant) (ranked : List RankKey)
    (round : Nat) (s : ScoreRow) :
    (rankUpdate parts ranked round s).participant_id = s.participant_id
    ∧ (rankUpdate parts ranked round s).round_number = s.round_number
    ∧ (rankUpdate parts ranked round s).correct_answers = s.correct_answers
    ∧ (rankUpdate parts ranked round s).time_taken_seconds = s.time_taken_seconds := by
  unfold rankUpdate
  refine ⟨?_, ?_, ?_, ?_⟩ <;> (repeat' split) <;> rfl

/-- The qualified-flag updates never touch identity, score, elapsed time or
rank. -/
lemma shortlist_fields (round top : Nat) (s : ScoreRow) :
    (markTopN round top (resetQualified round s)).participant_id = s.participant_id
    ∧ (markTopN round top (resetQualified round s)).round_number = s.round_number
    ∧ (markTopN round top (resetQualified round s)).correct_answers = s.correct_answers
    ∧ (markTopN round top (resetQualified round s)).time_taken_seconds = s.time_taken_seconds
    ∧ (markTopN round top (resetQualified round s)).rank = s.rank := by
  unfold markTopN resetQualified
  refine ⟨?_, ?_, ?_, ?_, ?_⟩ <;> (repeat' split) <;> rfl

/-- A round row of a disqualified participant is ranked NULL and
dequalified. -/
lemma rankUpdate_disqualified (parts : List Participant) (ranked : List RankKey)
    (round : Nat) (s : ScoreRow) (p : Participant)
    (hr : s.round_number = round)
    (hf : parts.find? (fun q => q.id == s.participant_id) = some p)
    (hd : p.is_disqualified = true) :
    rankUpdate parts ranked round s =
      { s with rank := none, qualified_for_next := false } := by
  unfold rankUpdate
  rw [if_pos (by simp [hr]), hf]
  simp [hd]

/-- Claim C6: after ranking and shortlisting a round, no score row of a
disqualified participant carries a rank or a qualified flag, while the
scores themselves (identity, round, correct count, elapsed time) are exactly
those computed before ranking. -/
theorem disqualified_excluded (st : DB) (round top : Nat) :
    (∀ s ∈ ((perform_shortlisting (generate_rankings st round) round top).1).scores,
      s.round_number = round →
      ∀ p, st.participants.find? (fun q => q.id == s.participant_id) = some p →
        p.is_disqualified = true →
        s.rank = none ∧ s.qualified_for_next = false)
    ∧ ((perform_shortlisting (generate_rankings st round) round top).1).scores.map
        (fun s => (s.participant_id, s.round_number, s.correct_answers,
                   s.time_taken_seconds))
      = st.scores.map
        (fun s => (s.participant_id, s.round_number, s.correct_answers,
                   s.time_taken_seconds)) := by
  constructor
  · intro s hs hround p hfind hdisq
    simp only [perform_shortlisting, generate_rankings, List.mem_map] at hs
    obtain ⟨s1, ⟨s2, ⟨s0, hs0, rfl⟩, rfl⟩, rfl⟩ := hs
    have hrf := rankUpdate_fields st.participants (rankedKeys st round) round s0
    have hsf := shortlist_fields round top
      (rankUpdate st.participants (rankedKeys st round) round s0)
    have hr0 : s0.round_number = round := by
      rw [← hrf.2.1, ← hsf.2.1]
      exact hround
    have hf0 : st.participants.find? (fun q => q.id == s0.participant_id) = some p := by
      rw [← hrf.1, ← hsf.1]
      exact hfind
    have hu := rankUpdate_disqualified st.participants (rankedKeys st round) round
      s0 p hr0 hf0 hdisq
    rw [hu]
    have hreset : resetQualified round
        { s0 with rank := none, qualified_for_next := false } =
        { s0 with rank := none, qualified_for_next := false } := by
      unfold resetQualified
      rw [if_pos (by simp [hr0])]
    have hmark : markTopN round top
        { s0 with rank := none, qualified_for_next := false } =
        { s0 with rank := none, qualified_for_next := false } := by
      unfold markTopN
      rw [if_neg (by simp)]
    rw [hreset, hmark]
    exact ⟨rfl, rfl⟩
  · simp only [perform_shortlisting, generate_rankings, List.map_map]
    apply List.map_congr_left
    intro s0 _
    have hrf := rankUpdate_fields st.participants (rankedKeys st round) round s0
    have hsf := shortlist_fields round top
      (rankUpdate st.participants (rankedKeys st round) round s0)
    simp only [Function.comp_apply]
    rw [hsf.1, hsf.2.1, hsf.2.2.1, hsf.2.2.2.1, hrf.1, hrf.2.1, hrf.2.2.1, hrf.2.2.2]

/-- A participant that is disqualified, for the C6 witness. -/
def exParticipantDisq : Participant :=
  { id := 2, is_active := true, current_round := 1, is_qualified := true,
    is_disqualified := true, disqualification_reason := some "tab switches" }

/-- State with one eligible and one disqualified scored participant. -/
def exDBScores : DB :=
  { event_state := exEvent, rounds := [exRoundDone],
    participants := [exParticipant, exParticipantDisq], questions := [exQuestion],
    responses := [], exam_sessions := [],
    scores := [{ participant_id := 1, round_number := 1, correct_answers := 5,
                 total_questions := 15, time_taken_seconds := some 60, rank := none,
                 qualified_for_next := false },
               { participant_id := 2, round_number := 1, correct_answers := 9,
                 total_questions := 15, time_taken_seconds := some 50, rank := some 1,
                 qualified_for_next := true }],
    submissions := [] }

/-- Claim C6, witness: the exclusion theorem applied to a concrete state in
which the disqualified participant even held a stale rank and qualified
flag. -/
theorem disqualified_excluded_wit :
    exParticipantDisq.is_disqualified = true
    ∧ exDBScores.participants.find? (fun q => q.id == 2) = some exParticipantDisq
    ∧ (∀ s ∈ ((perform_shortlisting (generate_rankings exDBScores 1) 1 25).1).scores,
      s.round_number = 1 →
      ∀ p, exDBScores.participants.find? (fun q => q.id == s.participant_id) = some p →
        p.is_disqualified = true →
        s.rank = none ∧ s.qualified_for_next = false) :=
  ⟨rfl, rfl, (disqualified_excluded exDBScores 1 25).1⟩

/-- `ASC NULLS LAST` is total. -/
lemma timeLe_total (a b : Option Int) : (timeLe a b || timeLe b a) = true := by
  cases a <;> cases b <;> simp [timeLe] <;> omega

/-- `ASC NULLS LAST` is transitive. -/
lemma timeLe_trans (a b c : Option Int) (h1 : timeLe a b = true)
    (h2 : timeLe b c = true) : timeLe a c = true := by
  cases a <;> cases b <;> cases c <;> simp [timeLe] at * <;> omega

/-- `ASC NULLS LAST` is antisymmetric. -/
lemma timeLe_antisymm (a b : Option Int) (h1 : timeLe a b = true)
    (h2 : timeLe b a = true) : a = b := by
  cases a <;> cases b <;> simp [timeLe] at * <;> omega

/-- Propositional characterization of the ranking order. -/
lemma keyLe_iff (a b : RankKey) : keyLe a b = true ↔
    b.correct < a.correct
    ∨ (a.correct = b.correct ∧ a.time ≠ b.time ∧ timeLe a.time b.time = true)
    ∨ (a.correct = b.correct ∧ a.time = b.time ∧ a.pid ≤ b.pid) := by
  unfold keyLe
  by_cases hc : a.correct = b.correct
  · by_cases ht : a.time = b.time
    · simp [hc, ht]
    · simp [hc, ht]
  · simp [hc]

/-- The ranking order is reflexive. -/
lemma keyLe_refl (a : RankKey) : keyLe a a = true := by
  rw [keyLe_iff]
  right; right
  exact ⟨rfl, rfl, le_refl _⟩

/-- The ranking order is total. -/
lemma keyLe_total (a b : RankKey) : (keyLe a b || keyLe b a) = true := by
  simp only [Bool.or_eq_true, keyLe_iff]
  by_cases hc : a.correct = b.correct
  · by_cases ht : a.time = b.time
    · by_cases hp : a.pid ≤ b.pid
      · exact Or.inl (Or.inr (Or.inr ⟨hc, ht, hp⟩))
      · exact Or.inr (Or.inr (Or.inr ⟨hc.symm, ht.symm, by omega⟩))
    · have := timeLe_total a.time b.time
      simp only [Bool.or_eq_true] at this
      rcases this with h | h
      · exact Or.inl (Or.inr (Or.inl ⟨hc, ht, h⟩))
      · exact Or.inr (Or.inr (Or.inl ⟨hc.symm, Ne.symm ht, h⟩))
  · by_cases hlt : b.correct < a.correct
    · exact Or.inl (Or.inl hlt)
    · exact Or.inr (Or.inl (by omega))

/-- The ranking order is transitive. -/
lemma keyLe_trans (a b c : RankKey) (h1 : keyLe a b = true)
    (h2 : keyLe b c = true) : keyLe a c = true := by
  rw [keyLe_iff] at h1 h2 ⊢
  rcases h1 with h1 | ⟨e1, t1, l1⟩ | ⟨e1, t1, p1⟩ <;>
    rcases h2 with h2 | ⟨e2, t2, l2⟩ | ⟨e2, t2, p2⟩
  · exact Or.inl (by omega)
  · exact Or.inl (by omega)
  · exact Or.inl (by omega)
  · exact Or.inl (by omega)
  · by_cases t3 : a.time = c.time
    · exfalso
      apply t1
      exact timeLe_antisymm _ _ l1 (t3 ▸ l2)
    · exact Or.inr (Or.inl ⟨e1.trans e2, t3, timeLe_trans _ _ _ l1 l2⟩)
  · exact Or.inr (Or.inl ⟨e1.trans e2, t2 ▸ t1, t2 ▸ l1⟩)
  · exact Or.inl (by omega)
  · exact Or.inr (Or.inl ⟨e1.trans e2, fun h => t2 (t1 ▸ h), t1 ▸ l2⟩)
  · exact Or.inr (Or.inr ⟨e1.trans e2, t1.trans t2, p1.trans p2⟩)

/-- The ranking order is antisymmetric: keys comparing equal both ways are
equal. -/
lemma keyLe_antisymm (a b : RankKey) (h1 : keyLe a b = true)
    (h2 : keyLe b a = true) : a = b := by
  rw [keyLe_iff] at h1 h2
  have hc : a.correct = b.correct := by
    rcases h1 with h | ⟨e, _⟩ | ⟨e, _⟩ <;> rcases h2 with h' | ⟨e', _⟩ | ⟨e', _⟩ <;>
      omega
  have ht : a.time = b.time := by
    rcases h1 with h | ⟨e, t, l⟩ | ⟨e, t, _⟩
    · omega
    · rcases h2 with h' | ⟨e', t', l'⟩ | ⟨e', t', _⟩
      · omega
      · exact timeLe_antisymm _ _ l l'
      · exact t'.symm
    · exact t
  have hp : a.pid = b.pid := by
    rcases h1 with h | ⟨e, t, _⟩ | ⟨e, t, p⟩
    · omega
    · exact absurd ht t
    · rcases h2 with h' | ⟨e', t', _⟩ | ⟨e', t', p'⟩
      · omega
      · exact absurd ht.symm t'
      · omega
  cases a; cases b
  simp_all

instance : IsAntisymm RankKey (fun a b => keyLe a b = true) := ⟨keyLe_antisymm⟩

/-- The ranked CTE output is sorted by the ranking order. -/
lemma rankedKeys_sorted (st : DB) (round : Nat) :
    List.Sorted (fun a b => keyLe a b = true) (rankedKeys st round) :=
  List.sorted_mergeSort keyLe_trans keyLe_total _

/-- The ranked CTE output lists exactly the keys of the eligible rows. -/
lemma rankedKeys_mem (st : DB) (round : Nat) (k : RankKey) :
    k ∈ rankedKeys st round ↔
      k ∈ (st.scores.filter (fun s =>
        s.round_number == round && isEligible st.participants s.participant_id)).map
        scoreKey := by
  unfold rankedKeys
  exact List.mem_mergeSort

/-- Ranking output depends only on the multiset of score rows and the
participants table. -/
lemma rankedKeys_congr (st1 st2 : DB) (round : Nat)
    (hs : st1.scores.Perm st2.scores)
    (hp : st1.participants = st2.participants) :
    rankedKeys st1 round = rankedKeys st2 round := by
  unfold rankedKeys
  rw [hp]
  have hperm : ((st1.scores.filter (fun s =>
      s.round_number == round && isEligible st2.participants s.participant_id)).map
      scoreKey).Perm ((st2.scores.filter (fun s =>
      s.round_number == round && isEligible st2.participants s.participant_id)).map
      scoreKey) :=
    (hs.filter _).map scoreKey
  exact @List.eq_of_perm_of_sorted RankKey (fun a b => keyLe a b = true) _ _ _
    (((List.mergeSort_perm _ keyLe).trans hperm).trans
      (List.mergeSort_perm _ keyLe).symm)
    (List.sorted_mergeSort keyLe_trans keyLe_total _)
    (List.sorted_mergeSort keyLe_trans keyLe_total _)

/-- A found index points at an entry with the sought participant id. -/
lemma idxOfPid_get (p : Nat) (l : List RankKey) (i : Nat)
    (h : idxOfPid p l = some i) :
    ∃ hl : i < l.length, (l.get ⟨i, hl⟩).pid = p := by
  induction l generalizing i with
  | nil => cases h
  | cons k ks ih =>
    unfold idxOfPid at h
    by_cases hk : (k.pid == p) = true
    · rw [if_pos hk] at h
      cases h
      refine ⟨Nat.succ_pos _, ?_⟩
      show k.pid = p
      simpa using hk
    · rw [if_neg hk] at h
      rcases hj : idxOfPid p ks with _ | j
      · rw [hj] at h; cases h
      · rw [hj] at h
        cases h
        obtain ⟨hl, hget⟩ := ih j hj
        exact ⟨Nat.succ_lt_succ hl, hget⟩

/-- A key with the sought participant id guarantees the index search
succeeds. -/
lemma idxOfPid_isSome (p : Nat) (l : List RankKey) (k : RankKey)
    (hk : k ∈ l) (hp : k.pid = p) : ∃ i, idxOfPid p l = some i := by
  induction l with
  | nil => cases hk
  | cons k0 ks ih =>
    unfold idxOfPid
    by_cases h0 : (k0.pid == p) = true
    · exact ⟨0, by rw [if_pos h0]⟩
    · rcases List.mem_cons.1 hk with rfl | hmem
      · exact absurd (by simp [hp]) h0
      · obtain ⟨i, hi⟩ := ih hmem
        exact ⟨i + 1, by rw [if_neg h0, hi]; rfl⟩

/-- Filtering with a conjunction yields a sublist of filtering with one
conjunct. -/
lemma filter_and_sublist {α : Type} (p q : α → Bool) (l : List α) :
    (l.filter (fun x => p x && q x)).Sublist (l.filter p) := by
  induction l with
  | nil => simp
  | cons x xs ih =>
    by_cases hp : p x = true
    · by_cases hq : q x = true
      · simpa [List.filter_cons, hp, hq] using ih.cons₂ x
      · simpa [List.filter_cons, hp, hq] using ih.cons x
    · simpa [List.filter_cons, hp] using ih

/-- With unique participants per round, a ranked key with a row's participant
id is that row's key. -/
lemma rankedKeys_pid_key (st : DB) (round : Nat)
    (hnd : ((st.scores.filter (fun s => s.round_number == round)).map
        (·.participant_id)).Nodup)
    (s0 : ScoreRow) (hs0 : s0 ∈ st.scores) (hr0 : s0.round_number = round)
    (k : RankKey) (hk : k ∈ rankedKeys st round)
    (hpid : k.pid = s0.participant_id) : k = scoreKey s0 := by
  rw [rankedKeys_mem] at hk
  obtain ⟨s1, hs1, rfl⟩ := List.mem_map.1 hk
  have hs1r : s1 ∈ st.scores.filter (fun s => s.round_number == round) :=
    (filter_and_sublist (fun s => s.round_number == round)
      (fun s => isEligible st.participants s.participant_id) st.scores).subset hs1
  have hs0r : s0 ∈ st.scores.filter (fun s => s.round_number == round) :=
    List.mem_filter.2 ⟨hs0, by simp [hr0]⟩
  have heq : s1 = s0 := List.inj_on_of_nodup_map hnd hs1r hs0r hpid
  rw [heq]

/-- A participant found and not disqualified is eligible. -/
lemma isEligible_of_find? (parts : List Participant) (pid : Nat) (p : Participant)
    (hf : parts.find? (fun q => q.id == pid) = some p)
    (hd : p.is_disqualified = false) : isEligible parts pid = true := by
  unfold isEligible
  rw [hf]
  simp [hd]

/-- The rank an eligible row receives is its position in the ranked CTE. -/
lemma rankUpdate_eligible (parts : List Participant) (ranked : List RankKey)
    (round : Nat) (s : ScoreRow) (p : Participant) (i : Nat)
    (hr : s.round_number = round)
    (hf : parts.find? (fun q => q.id == s.participant_id) = some p)
    (hd : p.is_disqualified = false)
    (hidx : idxOfPid s.participant_id ranked = some i) :
    rankUpdate parts ranked round s = { s with rank := some (i + 1) } := by
  unfold rankUpdate
  rw [if_pos (by simp [hr]), hf]
  simp [hd, hidx]

/-- Inversion: a rank assigned by `generate_rankings` to a row of the round
is one more than the position of that row's key in the sorted ranked CTE. -/
lemma rank_some_inv (st : DB) (round : Nat)
    (hnd : ((st.scores.filter (fun s => s.round_number == round)).map
        (·.participant_id)).Nodup)
    (hFK : ∀ s ∈ st.scores, s.round_number = round →
        ∃ p ∈ st.participants, p.id = s.participant_id) :
    ∀ s ∈ (generate_rankings st round).scores, s.round_number = round →
    ∀ i, s.rank = some i →
    ∃ j, i = j + 1 ∧ ∃ hj : j < (rankedKeys st round).length,
      ∃ s0 ∈ st.scores, s0.round_number = round
        ∧ s0.participant_id = s.participant_id
        ∧ (rankedKeys st round).get ⟨j, hj⟩ = scoreKey s0
        ∧ scoreKey s = scoreKey s0 := by
  intro s hs hround i hi
  simp only [generate_rankings, List.mem_map] at hs
  obtain ⟨s0, hs0, rfl⟩ := hs
  have hrf := rankUpdate_fields st.participants (rankedKeys st round) round s0
  have hr0 : s0.round_number = round := by rw [← hrf.2.1]; exact hround
  obtain ⟨p, hp, hpid⟩ := hFK s0 hs0 hr0
  have hsome : (st.participants.find?
      (fun q => q.id == s0.participant_id)).isSome = true :=
    List.find?_isSome.2 ⟨p, hp, by simp [hpid]⟩
  obtain ⟨p1, hfp⟩ := Option.isSome_iff_exists.1 hsome
  by_cases hd : p1.is_disqualified = true
  · rw [rankUpdate_disqualified st.participants (rankedKeys st round) round s0 p1
      hr0 hfp hd] at hi
    cases hi
  · simp only [Bool.not_eq_true] at hd
    have helig := isEligible_of_find? st.participants s0.participant_id p1 hfp hd
    have hmemk : scoreKey s0 ∈ rankedKeys st round := by
      rw [rankedKeys_mem]
      exact List.mem_map_of_mem _ (List.mem_filter.2 ⟨hs0, by simp [hr0, helig]⟩)
    obtain ⟨j, hj⟩ := idxOfPid_isSome s0.participant_id (rankedKeys st round)
      (scoreKey s0) hmemk rfl
    rw [rankUpdate_eligible st.participants (rankedKeys st round) round s0 p1 j
      hr0 hfp hd hj] at hi ⊢
    have hieq : i = j + 1 := by
      have : some (j + 1) = some i := hi
      cases this
      rfl
    obtain ⟨hjl, hgetp⟩ := idxOfPid_get s0.participant_id (rankedKeys st round) j hj
    have hkey := rankedKeys_pid_key st round hnd s0 hs0 hr0
      ((rankedKeys st round).get ⟨j, hjl⟩)
      (List.get_mem _ _ hjl) hgetp
    exact ⟨j, hieq, hjl, s0, hs0, hr0, rfl, hkey, rfl⟩

/-- Claim C5: ranking is deterministic and injective over the ranking order.
Given the per-round uniqueness of score rows and participant integrity:
(a) two runs over permuted score tables with the same participants assign
every participant the same rank; (b) no two distinct round rows share a rank;
(c) ranks enumerate the rows in the total order score descending, elapsed
ascending with nulls last, participant id ascending. -/
theorem ranking_deterministic_total (st1 st2 : DB) (round : Nat)
    (hperm : st1.scores.Perm st2.scores)
    (hpart : st1.participants = st2.participants)
    (hnd : ((st1.scores.filter (fun s => s.round_number == round)).map
        (·.participant_id)).Nodup)
    (hFK : ∀ s ∈ st1.scores, s.round_number = round →
        ∃ p ∈ st1.participants, p.id = s.participant_id) :
    (∀ s ∈ (generate_rankings st1 round).scores,
     ∀ t ∈ (generate_rankings st2 round).scores,
      s.round_number = round → t.round_number = round →
      s.participant_id = t.participant_id → s.rank = t.rank)
    ∧ (∀ s ∈ (generate_rankings st1 round).scores,
       ∀ t ∈ (generate_rankings st1 round).scores,
      s.round_number = round → t.round_number = round →
      ∀ i, s.rank = some i → t.rank = some i → s.participant_id = t.participant_id)
    ∧ (∀ s ∈ (generate_rankings st1 round).scores,
       ∀ t ∈ (generate_rankings st1 round).scores,
      s.round_number = round → t.round_number = round →
      ∀ i j, s.rank = some i → t.rank = some j → i < j →
        keyLe (scoreKey s) (scoreKey t) = true) := by
  have hrk := rankedKeys_congr st1 st2 round hperm hpart
  refine ⟨?_, ?_, ?_⟩
  · intro s hs t ht hrs hrt hpid
    simp only [generate_rankings, List.mem_map] at hs ht
    obtain ⟨s0, hs0, rfl⟩ := hs
    obtain ⟨t0, ht0, rfl⟩ := ht
    rw [← hpart, ← hrk] at *
    have hfs := rankUpdate_fields st1.participants (rankedKeys st1 round) round s0
    have hft := rankUpdate_fields st1.participants (rankedKeys st1 round) round t0
    have ht0' : t0 ∈ st1.scores := hperm.mem_iff.2 ht0
    have hs0r : s0 ∈ st1.scores.filter (fun x => x.round_number == round) :=
      List.mem_filter.2 ⟨hs0, by simp [show s0.round_number = round from
        hfs.2.1 ▸ hrs]⟩
    have ht0r : t0 ∈ st1.scores.filter (fun x => x.round_number == round) :=
      List.mem_filter.2 ⟨ht0', by simp [show t0.round_number = round from
        hft.2.1 ▸ hrt]⟩
    have heq : s0 = t0 := List.inj_on_of_nodup_map hnd hs0r ht0r
      (by rw [← hfs.1, ← hft.1]; exact hpid)
    rw [heq]
  · intro s hs t ht hrs hrt i hsi hti
    obtain ⟨js, hjs, hjls, s0, _, _, hps0, hgets, _⟩ :=
      rank_some_inv st1 round hnd hFK s hs hrs i hsi
    obtain ⟨jt, hjt, hjlt, t0, _, _, hpt0, hgett, _⟩ :=
      rank_some_inv st1 round hnd hFK t ht hrt i hti
    have hjj : js = jt := by omega
    subst hjj
    have : scoreKey s0 = scoreKey t0 := by rw [← hgets, ← hgett]
    have hpideq : s0.participant_id = t0.participant_id :=
      congrArg RankKey.pid this
    rw [← hps0, ← hpt0]
    exact hpideq
  · intro s hs t ht hrs hrt i j hsi htj hij
    obtain ⟨js, hjs, hjls, s0, _, _, _, hgets, hkeys⟩ :=
      rank_some_inv st1 round hnd hFK s hs hrs i hsi
    obtain ⟨jt, hjt, hjlt, t0, _, _, _, hgett, hkeyt⟩ :=
      rank_some_inv st1 round hnd hFK t ht hrt j htj
    have hlt : js < jt := by omega
    have hrel := (rankedKeys_sorted st1 round).rel_get_of_lt
      (show (⟨js, hjls⟩ : Fin (rankedKeys st1 round).length) < ⟨jt, hjlt⟩ from hlt)
    rw [hgets, hgett] at hrel
    rw [hkeys, hkeyt]
    exact hrel

/-- `exDBScores` with its score rows in the opposite arrival order. -/
def exDBScoresPerm : DB :=
  { exDBScores with scores :=
      [{ participant_id := 2, round_number := 1, correct_answers := 9,
         total_questions := 15, time_taken_seconds := some 50, rank := some 1,
         qualified_for_next := true },
       { participant_id := 1, round_number := 1, correct_answers := 5,
         total_questions := 15, time_taken_seconds := some 60, rank := none,
         qualified_for_next := false }] }

/-- Claim C5, witness: the determinism theorem applied to the concrete score
table and its reordering. -/
theorem ranking_deterministic_total_wit :
    exDBScores.scores.Perm exDBScoresPerm.scores
    ∧ exDBScores.participants = exDBScoresPerm.participants
    ∧ ((exDBScores.scores.filter (fun s => s.round_number == 1)).map
        (·.participant_id)).Nodup
    ∧ (∀ s ∈ exDBScores.scores, s.round_number = 1 →
        ∃ p ∈ exDBScores.participants, p.id = s.participant_id)
    ∧ (∀ s ∈ (generate_rankings exDBScores 1).scores,
       ∀ t ∈ (generate_rankings exDBScoresPerm 1).scores,
      s.round_number = 1 → t.round_number = 1 →
      s.participant_id = t.participant_id → s.rank = t.rank) :=
  ⟨by decide, rfl, by decide, by decide,
   (ranking_deterministic_total exDBScores exDBScoresPerm 1
     (by decide) rfl (by decide) (by decide)).1⟩
